import Mathlib

/-!
# AdventureGame

A shallow embedding of `capstone.cpp`, a single-file text adventure, and
theorems about its command loop.

The eight `Room` objects that `main` allocates on its stack are identified by
`RoomId`; a `Room*` is an `Option RoomId` (`none` for `nullptr`) and the heap of
rooms is a function `RoomId → Room`.  The two `NPC` objects are owned by the
room whose `npc` pointer refers to them (the program never re-targets an `npc`
pointer), so `Room.npc` holds the `NPC` value itself.  Everything the game
loop writes to `std::cout` is recorded as a list of `Msg` events, one per print
statement; the banner and introduction printed before the loop are not part of
the model.  `Player::moveCount` is a 32-bit `int`: its values form the type
`CInt` and the increment wraps at the largest value.  `runFrom` is the loop
over input lines that are there to be read; `mainLoop` is the loop as written,
reading through `getline` from a `Stream` that can run out, and bounded by
fuel; `mainLoop_feed` relates the two.
-/

namespace AdventureGame

/-! ## Enumerations -/

/-- The enum `Direction { NORTH = 0, EAST, SOUTH, WEST }`. -/
inductive Direction where
  | NORTH
  | EAST
  | SOUTH
  | WEST
  deriving DecidableEq, Repr

/-- The enum `ItemType { NONE, SWORD, KEY, TREASURE }`. -/
inductive ItemType where
  | NONE
  | SWORD
  | KEY
  | TREASURE
  deriving DecidableEq, Repr

/-- The enum `NPCType { NO_NPC, VILLAGER, MONSTER }`. -/
inductive NPCType where
  | NO_NPC
  | VILLAGER
  | MONSTER
  deriving DecidableEq, Repr

/-- The eight `Room` objects declared in `main`, in declaration order. -/
inductive RoomId where
  | forest
  | ruins
  | cave
  | mountain
  | valley
  | lake
  | village
  | hiddenRoom
  deriving DecidableEq, Repr

/-! ## Data model -/

/-- The class `NPC`; the constructor sets `isDefeated` to `false`. -/
structure NPC where
  type : NPCType
  isDefeated : Bool
  dialogue : String
  deriving DecidableEq, Repr

/-- The constructor `NPC(NPCType t, const std::string& d)`. -/
def NPC.new (t : NPCType) (d : String) : NPC :=
  { type := t, isDefeated := false, dialogue := d }

/-- The class `Room`.  `connections` is the array `Room* connections[4]` indexed
by `Direction`; `availablePaths` is the array `std::string availablePaths[4]`
(a list of four strings) of which the first `numPaths` entries are shown. -/
structure Room where
  connections : Direction → Option RoomId
  availablePaths : List String
  numPaths : Nat
  name : String
  description : String
  detailedDescription : String
  item : ItemType
  npc : Option NPC
  isLocked : Bool

/-- The constructor `Room(const std::string& n, const std::string& desc)`. -/
def Room.new (n desc : String) : Room :=
  { connections := fun _ => none
    availablePaths := ["", "", "", ""]
    numPaths := 0
    name := n
    description := desc
    detailedDescription := ""
    item := ItemType.NONE
    npc := none
    isLocked := false }

/-- The array `bool itemInventory[3]` of `Player`: slot `SWORD-1`, slot `KEY-1`
and slot `TREASURE-1`. -/
structure Inventory where
  sword : Bool
  key : Bool
  treasure : Bool
  deriving DecidableEq, Repr

/-- Width-32 two's-complement wrap of an integer: the value a C++ `int` holds
after an arithmetic result leaves the range `[-2^31, 2^31 - 1]` on the usual
targets (the standard itself leaves signed overflow undefined). -/
def wrapInt32 (x : Int) : Int :=
  (x + 2147483648) % 4294967296 - 2147483648

/-- The values of a 32-bit C++ `int`. -/
def CInt : Type :=
  { x : Int // -2147483648 ≤ x ∧ x ≤ 2147483647 }

instance : DecidableEq CInt :=
  inferInstanceAs (DecidableEq { x : Int // -2147483648 ≤ x ∧ x ≤ 2147483647 })

instance : Repr CInt :=
  ⟨fun c n => reprPrec c.val n⟩

/-- The `int` constant `0`. -/
def CInt.zero : CInt :=
  ⟨0, by decide⟩

/-- The postfix increment `x++` on an `int`. -/
def CInt.succ (c : CInt) : CInt :=
  ⟨wrapInt32 (c.val + 1), by unfold wrapInt32; constructor <;> omega⟩

/-- The class `Player`.  `moveCount` is a C++ `int`. -/
structure Player where
  itemInventory : Inventory
  currentRoom : RoomId
  hasTreasure : Bool
  moveCount : CInt
  deriving DecidableEq, Repr

/-- The constructor `Player(Room* startingRoom)`. -/
def Player.new (startingRoom : RoomId) : Player :=
  { itemInventory := { sword := false, key := false, treasure := false }
    currentRoom := startingRoom
    hasTreasure := false
    moveCount := CInt.zero }

/-- The method `Player::hasItem`: `item != NONE && itemInventory[item-1]`. -/
def Player.hasItem (p : Player) : ItemType → Bool
  | ItemType.NONE => false
  | ItemType.SWORD => p.itemInventory.sword
  | ItemType.KEY => p.itemInventory.key
  | ItemType.TREASURE => p.itemInventory.treasure

/-- The method `Player::addItem`. -/
def Player.addItem (p : Player) : ItemType → Player
  | ItemType.NONE => p
  | ItemType.SWORD => { p with itemInventory := { p.itemInventory with sword := true } }
  | ItemType.KEY => { p with itemInventory := { p.itemInventory with key := true } }
  | ItemType.TREASURE =>
      { p with itemInventory := { p.itemInventory with treasure := true }, hasTreasure := true }

/-- The method `Player::canFight`. -/
def Player.canFight (p : Player) : Bool :=
  p.hasItem ItemType.SWORD

/-- The mutable state of the running game: the eight rooms and the player. -/
structure GameState where
  rooms : RoomId → Room
  player : Player

/-- The room `*player.currentRoom`. -/
def GameState.room (s : GameState) : Room :=
  s.rooms s.player.currentRoom

/-! ## Room methods -/

/-- The method `Room::addPath`. -/
def Room.addPath (r : Room) (path : String) : Room :=
  if r.numPaths < 4 then
    { r with availablePaths := r.availablePaths.set r.numPaths path
             numPaths := r.numPaths + 1 }
  else r

/-- The method `Room::clearPaths`: only the count is reset. -/
def Room.clearPaths (r : Room) : Room :=
  { r with numPaths := 0 }

/-- The method `Room::directionToString`. -/
def directionToString : Direction → String
  | Direction.NORTH => "north"
  | Direction.SOUTH => "south"
  | Direction.EAST => "east"
  | Direction.WEST => "west"

/-- The `switch` inside `Room::setConnection` that picks the reverse direction. -/
def opposite : Direction → Direction
  | Direction.NORTH => Direction.SOUTH
  | Direction.SOUTH => Direction.NORTH
  | Direction.EAST => Direction.WEST
  | Direction.WEST => Direction.EAST

/-- The assignment `connections[dir] = room` on one room. -/
def Room.connect (r : Room) (dir : Direction) (target : RoomId) : Room :=
  { r with connections := Function.update r.connections dir (some target) }

/-- The method `Room::setConnection`, called on room `self` of the heap `w`. -/
def setConnection (w : RoomId → Room) (self : RoomId) (dir : Direction)
    (room : Option RoomId) : RoomId → Room :=
  match room with
  | none => w
  | some r =>
    let w1 := Function.update w self (((w self).connect dir r).addPath (directionToString dir))
    Function.update w1 r (((w1 r).connect (opposite dir) self).addPath
      (directionToString (opposite dir)))

/-- The method `Room::canMove`. -/
def Room.canMove (r : Room) (dir : Direction) : Bool :=
  (r.connections dir).isSome

/-- The entries `getAvailablePaths()[0 .. getNumPaths()-1]` that the exit
listing loops over. -/
def Room.shownPaths (r : Room) : List String :=
  r.availablePaths.take r.numPaths

/-! ## Text constants -/

namespace GameColors

/-- The ANSI escape sequence `GameColors::reset`. -/
def reset : String := "\x1b[0m"

/-- The ANSI escape sequence `GameColors::bold`. -/
def bold : String := "\x1b[1m"

/-- The ANSI escape sequence `GameColors::blue`. -/
def blue : String := "\x1b[34m"

/-- The ANSI escape sequence `GameColors::red`. -/
def red : String := "\x1b[31m"

/-- The ANSI escape sequence `GameColors::green`. -/
def green : String := "\x1b[32m"

/-- The ANSI escape sequence `GameColors::yellow`. -/
def yellow : String := "\x1b[33m"

/-- The ANSI escape sequence `GameColors::cyan`. -/
def cyan : String := "\x1b[36m"

/-- The ANSI escape sequence `GameColors::magenta`. -/
def magenta : String := "\x1b[35m"

/-- The ANSI escape sequence `GameColors::forestColor`. -/
def forestColor : String := "\x1b[38;5;28m"

/-- The ANSI escape sequence `GameColors::ruinsColor`. -/
def ruinsColor : String := "\x1b[38;5;137m"

/-- The ANSI escape sequence `GameColors::caveColor`. -/
def caveColor : String := "\x1b[38;5;240m"

/-- The ANSI escape sequence `GameColors::mountainColor`. -/
def mountainColor : String := "\x1b[38;5;248m"

/-- The ANSI escape sequence `GameColors::lakeColor`. -/
def lakeColor : String := "\x1b[38;5;39m"

/-- The ANSI escape sequence `GameColors::villageColor`. -/
def villageColor : String := "\x1b[38;5;180m"

/-- The ANSI escape sequence `GameColors::hiddenRoomColor`. -/
def hiddenRoomColor : String := "\x1b[38;5;141m"

end GameColors

/-- The styled display name `forestName`. -/
def forestName : String :=
  GameColors.forestColor ++ GameColors.bold ++ "Forest" ++ GameColors.reset

/-- The styled display name `ruinsName`. -/
def ruinsName : String :=
  GameColors.ruinsColor ++ GameColors.bold ++ "Ruins" ++ GameColors.reset

/-- The styled display name `caveName`. -/
def caveName : String :=
  GameColors.caveColor ++ GameColors.bold ++ "Cave" ++ GameColors.reset

/-- The styled display name `mountainName`. -/
def mountainName : String :=
  GameColors.mountainColor ++ GameColors.bold ++ "\x1b[3m" ++ "Mountain" ++ GameColors.reset

/-- The styled display name `valleyName`. -/
def valleyName : String :=
  "\x1b[38;5;106m" ++ GameColors.bold ++ "Valley" ++ GameColors.reset

/-- The styled display name `lakeName`. -/
def lakeName : String :=
  GameColors.lakeColor ++ GameColors.bold ++ "\x1b[3m" ++ "Lake" ++ GameColors.reset

/-- The styled display name `villageName`. -/
def villageName : String :=
  GameColors.villageColor ++ GameColors.bold ++ "Village" ++ GameColors.reset

/-- The styled display name `hiddenRoomName`. -/
def hiddenRoomName : String :=
  GameColors.hiddenRoomColor ++ GameColors.bold ++ "Hidden Room" ++ GameColors.reset

/-- The short description passed to the constructor of `forest`. -/
def forestDescription : String :=
  GameColors.forestColor ++ "A dark forest surrounds you. Ancient trees tower overhead, and the air is thick with the scent of pine." ++ GameColors.reset

/-- The text assigned to `forest.detailedDescription`. -/
def forestDetailed : String :=
  GameColors.forestColor ++ "Ancient trees tower overhead, their branches swaying in the breeze. The air is thick with the scent of pine and wild mushrooms. Fallen leaves crunch beneath your feet, and somewhere in the distance, an owl hoots softly. The dense canopy above allows only occasional shafts of light to penetrate to the forest floor. You notice some old footprints leading east." ++ GameColors.reset

/-- The short description passed to the constructor of `ruins`. -/
def ruinsDescription : String :=
  GameColors.ruinsColor ++ "Crumbling stone walls and weathered pillars tell tales of an ancient civilization." ++ GameColors.reset

/-- The text assigned to `ruins.detailedDescription`. -/
def ruinsDetailed : String :=
  GameColors.ruinsColor ++ "Crumbling stone walls and weathered pillars tell tales of an ancient civilization. Intricate carvings, though worn by time, still adorn the weathered stones. Vines and moss have claimed much of the architecture. Among the broken pottery shards, you spot what appears to be a map fragment showing a path leading south." ++ GameColors.reset

/-- The short description passed to the constructor of `cave`. -/
def caveDescription : String :=
  GameColors.caveColor ++ "The damp cave walls glisten with moisture. Strange echoes bounce off the rocky surfaces." ++ GameColors.reset

/-- The text assigned to `cave.detailedDescription`. -/
def caveDetailed : String :=
  GameColors.caveColor ++ "The damp cave walls glisten with moisture. Strange echoes bounce off the rocky surfaces, making it impossible to tell their source. Mineral formations catch what little light there is, creating an otherworldly atmosphere. The monster's presence makes it difficult to explore further, but you sense something valuable might be hidden here." ++ GameColors.reset

/-- The short description passed to the constructor of `mountain`. -/
def mountainDescription : String :=
  GameColors.mountainColor ++ "The majestic mountain peak pierces the clouds above. The air is thin but crisp." ++ GameColors.reset

/-- The text assigned to `mountain.detailedDescription`. -/
def mountainDetailed : String :=
  GameColors.mountainColor ++ "The air is thin but crisp, and the view from here is breathtaking. Snow-capped peaks stretch into the distance, and the wind whistles through the rocky crags. Ancient runes are carved into some of the larger boulders. The eastern rock face seems unusually smooth compared to the rest." ++ GameColors.reset

/-- The short description passed to the constructor of `valley`. -/
def valleyDescription : String :=
  "\x1b[38;5;106m" ++ "A serene valley stretches between the mountains." ++ GameColors.reset

/-- The text assigned to `valley.detailedDescription`. -/
def valleyDetailed : String :=
  "\x1b[38;5;106m" ++ "Wildflowers dot the gentle slopes, creating a carpet of vibrant colors. A gentle breeze carries the sweet scent of mountain blooms, and butterflies dance among the flowers. Small streams trickle down from the heights, creating a peaceful melody. The path continues east towards what appears to be a large body of water." ++ GameColors.reset

/-- The short description passed to the constructor of `lake`. -/
def lakeDescription : String :=
  GameColors.lakeColor ++ "Crystal clear waters stretch before you, reflecting the sky like a mirror." ++ GameColors.reset

/-- The text assigned to `lake.detailedDescription`. -/
def lakeDetailed : String :=
  GameColors.lakeColor ++ "Crystal clear waters stretch before you, reflecting the sky like a mirror. The surface occasionally ripples as fish jump, creating expanding circles that distort the perfect reflection. The shoreline is dotted with smooth pebbles and tall reeds. Through the clear water, you can make out what looks like an old path leading south." ++ GameColors.reset

/-- The short description passed to the constructor of `village`. -/
def villageDescription : String :=
  GameColors.villageColor ++ "A peaceful village with thatched-roof houses and cobblestone streets." ++ GameColors.reset

/-- The text assigned to `village.detailedDescription`. -/
def villageDetailed : String :=
  GameColors.villageColor ++ "Thatched-roof houses line the cobblestone streets, smoke rising from their chimneys. The scent of hearth fires and cooking meals fills the air. Children play between the buildings while adults go about their daily tasks. You overhear villagers discussing local legends about hidden treasures and secret passages in the mountains." ++ GameColors.reset

/-- The short description passed to the constructor of `hiddenRoom`. -/
def hiddenRoomDescription : String :=
  GameColors.hiddenRoomColor ++ "This dusty chamber seems untouched for centuries. An ornate chest catches your eye." ++ GameColors.reset

/-- The text assigned to `hiddenRoom.detailedDescription`. -/
def hiddenRoomDetailed : String :=
  GameColors.hiddenRoomColor ++ "This dusty chamber seems untouched for centuries. An ornate chest catches your eye, its metalwork still gleaming despite its age. The walls are covered in elaborate tapestries depicting ancient battles and mystical creatures. Precious gems and metals are worked into the very structure of the room, creating a subtle sparkle in the dim light." ++ GameColors.reset


/-- The dialogue string of the villager created for `village.npc`. -/
def villagerDialogue : String :=
  "Greetings traveler! Let me show you a map of the area:\n\n" ++ GameColors.bold ++ GameColors.blue ++
  "\n    Village в”Җв”Җв”Җ Valley в”Җв”Җв”Җ Lake\n        в”Ӯ                    в”Ӯ\n        в”Ӯ                    в”Ӯ\n    Forest в”Җв”Җв”Җ Ruins         в”Ӯ\n                  в”Ӯ          в”Ӯ\n                  в”Ӯ          в”Ӯ\n                Cave         в”Ӯ\n                             в”Ӯ\n                         Mountain\n" ++
  GameColors.reset ++ "\n" ++ GameColors.cyan ++
  "There are many interesting places to explore. I've heard whispers of ancient treasures hidden somewhere in these lands, but their location remains a mystery..." ++ GameColors.reset

/-- The dialogue string of the monster created for `cave.npc`. -/
def monsterDialogue : String :=
  "A fearsome monster guards a mysterious key!"

/-- The command prompt printed before every read. -/
def promptText : String :=
  "\n" ++ GameColors.bold ++ GameColors.blue ++ "в”Ңв”Җв”Җв”Җв”Җв”Җв”Җв”Җв”Җв”Җв”Җв”Җв”Җв”Җв”Җв”Җв”Җв”Җв”Җв”Җв”Җв”Җв”җ" ++ "\n" ++
  "в”Ӯ  Enter a command:   в”Ӯ" ++ "\n" ++
  "в””в”Җв”Җв”Җв”Җв”Җв”Җв”Җв”Җв”Җв”Җв”Җв”Җв”Җв”Җв”Җв”Җв”Җв”Җв”Җв”Җв”Җв”ҳ" ++ GameColors.reset ++ "\n"

/-- The command menu printed by `help`. -/
def helpText : String :=
  GameColors.bold ++ "в”Ңв”Җв”Җв”Җв”Җв”Җв”Җв”Җв”Җв”Җв”Җв”Җв”Җв”Җв”Җв”Җ " ++ GameColors.yellow ++ "Commands" ++ GameColors.cyan ++ " в”Җв”Җв”Җв”Җв”Җв”Җв”Җв”Җв”Җв”Җв”Җв”Җв”Җв”Җв”Җв”җ\n" ++
  "в”Ӯ " ++ GameColors.green ++ "в–¶ n, s, e, w" ++ GameColors.cyan ++ ": Movement                в”Ӯ\n" ++
  "в”Ӯ " ++ GameColors.yellow ++ "в–¶ take" ++ GameColors.cyan ++ ": Pick up items                 в”Ӯ\n" ++
  "в”Ӯ " ++ GameColors.blue ++ "в–¶ talk" ++ GameColors.cyan ++ ": Speak with characters         в”Ӯ\n" ++
  "в”Ӯ " ++ GameColors.red ++ "в–¶ fight" ++ GameColors.cyan ++ ": Battle monsters              в”Ӯ\n" ++
  "в”Ӯ " ++ GameColors.magenta ++ "в–¶ help" ++ GameColors.cyan ++ ": Show commands                 в”Ӯ\n" ++
  "в”Ӯ " ++ GameColors.yellow ++ "в–¶ quit" ++ GameColors.cyan ++ ": Exit game                     в”Ӯ\n" ++
  "в””в”Җв”Җв”Җв”Җв”Җв”Җв”Җв”Җв”Җв”Җв”Җв”Җв”Җв”Җв”Җв”Җв”Җв”Җв”Җв”Җв”Җв”Җв”Җв”Җв”Җв”Җв”Җв”Җв”Җв”Җв”Җв”Җв”Җв”Җв”Җв”Җв”Җв”Җв”Җв”Җв”ҳ" ++ GameColors.reset ++ "\n"

/-- The farewell banner printed by `quit`. -/
def quitText : String :=
  GameColors.bold ++ GameColors.blue ++ "\nв•”в•җв•җв•җв•җв•җв•җв•җв•җв•җв•җв•җв•җв•җв•җв•җв•җв•җв•җв•җв•җв•җв•җв•җв•җв•җв•җв•җв•җв•җв•җв•җв•җв•җв•җв•җв•җв•җв•җв•җв•җв•җв•җв•җв•—\nв•‘          Thanks for playing!              в•‘\nв•ҡв•җв•җв•җв•җв•җв•җв•җв•җв•җв•җв•җв•җв•җв•җв•җв•җв•җв•җв•җв•җв•җв•җв•җв•җв•җв•җв•җв•җв•җв•җв•җв•җв•җв•җв•җв•җв•җв•җв•җв•җв•җв•җв•җв•қ\n" ++ GameColors.reset ++ "\n"

/-- The victory banner, which reports `player.moveCount`. -/
def victoryText (moveCount : CInt) : String :=
  "\n" ++ GameColors.bold ++ GameColors.green ++ "\nв•”в•җв•җв•җв•җв•җв•җв•җв•җв•җв•җв•җв•җв•җв•җв•җв•җв•җв•җв•җв•җв•җв•җв•җв•җв•җв•җв•җв•җв•җв•җв•җв•җв•җв•җв•җв•җв•җв•җв•җв•җв•җв•җв•җв•җв•җв•җв•җв•җв•җв•җв•җв•җв•—\nв•‘     рҹҺү Congratulations! You found the treasure! рҹҺү  в•‘\nв•‘        You completed the game in " ++
  toString moveCount.val ++ " moves!        в•‘\nв•ҡв•җв•җв•җв•җв•җв•җв•җв•җв•җв•җв•җв•җв•җв•җв•җв•җв•җв•җв•җв•җв•җв•җв•җв•җв•җв•җв•җв•җв•җв•җв•җв•җв•җв•җв•җв•җв•җв•җв•җв•җв•җв•җв•җв•җв•җв•җв•җв•җв•җв•җв•җв•җв•қ" ++ GameColors.reset ++ "\n"

/-! ## Output -/

/-- One event per print statement of the game loop.  `Msg.text` gives the
characters each event writes. -/
inductive Msg where
  /-- The first line of `Room::describe`. -/
  | roomEntry (name description : String)
  /-- The first line of `Room::describeLook`. -/
  | roomLook (name detailedDescription : String)
  /-- The exit listing of `showAvailablePathsAndItems`. -/
  | paths (shown : List String)
  | villagerHere
  | monsterHere
  | swordHere
  | keyHere
  | treasureHere
  | prompt
  /-- The hint `look` prints at the mountain when the key is held. -/
  | mountainHint
  | helpMenu
  | quitBanner
  | victoryBanner (moveCount : CInt)
  | dialogue (words : String)
  | noOneToTalk
  | defeatMonster
  | foundKey
  | needSword
  | nothingToFight
  | chestLocked
  | takeSword
  | takeKey
  | takeTreasure
  | nothingToTake
  | unknownCommand
  | youMove (direction : String)
  | cannotGo
  deriving DecidableEq, Repr

/-- The body of the exit-listing loop: every shown path in yellow, separated by
commas. -/
def pathsText : List String → String
  | [] => ""
  | [p] => GameColors.yellow ++ p ++ GameColors.cyan
  | p :: q :: rest =>
      GameColors.yellow ++ p ++ GameColors.cyan ++ ", " ++ pathsText (q :: rest)

/-- The characters written for each output event. -/
def Msg.text : Msg → String
  | Msg.roomEntry name description => "\nYou are in " ++ name ++ ". " ++ description ++ "\n"
  | Msg.roomLook name detailed => "\nYou carefully examine " ++ name ++ ".\n" ++ detailed ++ "\n"
  | Msg.paths shown =>
      GameColors.cyan ++ "Available paths lead: " ++ pathsText shown ++ "." ++
        GameColors.reset ++ "\n"
  | Msg.villagerHere =>
      GameColors.bold ++ GameColors.cyan ++ "There is a villager here you can talk to." ++
        GameColors.reset ++ "\n"
  | Msg.monsterHere =>
      GameColors.bold ++ GameColors.red ++ "A fearsome monster blocks your path!" ++
        GameColors.reset ++ "\n"
  | Msg.swordHere =>
      GameColors.bold ++ GameColors.green ++ "There is a sword here that you can take." ++
        GameColors.reset ++ "\n"
  | Msg.keyHere =>
      GameColors.bold ++ GameColors.yellow ++ "There is a key here that you can take." ++
        GameColors.reset ++ "\n"
  | Msg.treasureHere =>
      GameColors.bold ++ GameColors.yellow ++ "There is a treasure chest here!" ++
        GameColors.reset ++ "\n"
  | Msg.prompt => promptText
  | Msg.mountainHint =>
      GameColors.bold ++ GameColors.cyan ++
        "\nAs you examine the area more carefully with your key in hand, you notice that some of the runes on the eastern rock face seem to form the outline of a doorway. Perhaps there's more here than meets the eye..." ++
        GameColors.reset ++ "\n"
  | Msg.helpMenu => helpText
  | Msg.quitBanner => quitText
  | Msg.victoryBanner moveCount => victoryText moveCount
  | Msg.dialogue words => GameColors.bold ++ GameColors.cyan ++ words ++ GameColors.reset ++ "\n"
  | Msg.noOneToTalk =>
      GameColors.bold ++ GameColors.red ++ "There is no one here to talk to." ++
        GameColors.reset ++ "\n"
  | Msg.defeatMonster =>
      GameColors.bold ++ GameColors.green ++ "You defeat the monster with your sword!" ++
        GameColors.reset ++ "\n"
  | Msg.foundKey =>
      GameColors.bold ++ GameColors.yellow ++ "You found a key!" ++ GameColors.reset ++ "\n"
  | Msg.needSword =>
      GameColors.bold ++ GameColors.red ++ "You need a sword to fight the monster!" ++
        GameColors.reset ++ "\n"
  | Msg.nothingToFight =>
      GameColors.bold ++ GameColors.red ++ "There is nothing to fight here." ++
        GameColors.reset ++ "\n"
  | Msg.chestLocked =>
      GameColors.bold ++ GameColors.red ++ "The chest is locked! You need a key." ++
        GameColors.reset ++ "\n"
  | Msg.takeSword =>
      GameColors.bold ++ GameColors.green ++ "You take the sword. Now you can fight monsters!" ++
        GameColors.reset ++ "\n"
  | Msg.takeKey =>
      GameColors.bold ++ GameColors.yellow ++ "You take the key." ++ GameColors.reset ++ "\n"
  | Msg.takeTreasure =>
      GameColors.bold ++ GameColors.green ++ "You have taken the treasure!" ++
        GameColors.reset ++ "\n"
  | Msg.nothingToTake =>
      GameColors.bold ++ GameColors.red ++ "There is nothing to take here." ++
        GameColors.reset ++ "\n"
  | Msg.unknownCommand =>
      GameColors.bold ++ GameColors.red ++ "Unknown command. Try 'n', 'e', 's', or 'w'." ++
        GameColors.reset ++ "\n"
  | Msg.youMove direction =>
      GameColors.green ++ "You move " ++ direction ++ "." ++ GameColors.reset ++ "\n"
  | Msg.cannotGo =>
      GameColors.bold ++ GameColors.red ++ "You cannot go that way. Try another direction." ++
        GameColors.reset ++ "\n"

/-- The occupant line of `showAvailablePathsAndItems`. -/
def npcLine : Option NPC → List Msg
  | none => []
  | some n =>
    if n.isDefeated then []
    else
      match n.type with
      | NPCType.VILLAGER => [Msg.villagerHere]
      | NPCType.MONSTER => [Msg.monsterHere]
      | NPCType.NO_NPC => []

/-- The item line of `showAvailablePathsAndItems`. -/
def itemLine : ItemType → List Msg
  | ItemType.NONE => []
  | ItemType.SWORD => [Msg.swordHere]
  | ItemType.KEY => [Msg.keyHere]
  | ItemType.TREASURE => [Msg.treasureHere]

/-- The method `Room::showAvailablePathsAndItems`. -/
def Room.showAvailablePathsAndItems (r : Room) : List Msg :=
  (if r.numPaths > 0 then [Msg.paths r.shownPaths] else []) ++ npcLine r.npc ++ itemLine r.item

/-- The method `Room::describe`. -/
def Room.describe (r : Room) : List Msg :=
  Msg.roomEntry r.name r.description :: r.showAvailablePathsAndItems

/-- The method `Room::describeLook`. -/
def Room.describeLook (r : Room) : List Msg :=
  Msg.roomLook r.name r.detailedDescription :: r.showAvailablePathsAndItems

/-- Whether `pat` occurs in `text` as a contiguous block of characters. -/
def occursIn (pat : List Char) : List Char → Bool
  | [] => pat.isEmpty
  | c :: cs => pat.isPrefixOf (c :: cs) || occursIn pat cs

/-- The test `name.find("Mountain") != std::string::npos` of the `look` handler. -/
def nameHasMountain (name : String) : Bool :=
  occursIn "Mountain".toList name.toList

/-! ## World builder -/

/-- The eight rooms after construction, the assignment of the long
descriptions and the placement of NPCs and items, before any connection is
made. -/
def builtRooms : RoomId → Room
  | RoomId.forest =>
      { Room.new forestName forestDescription with detailedDescription := forestDetailed }
  | RoomId.ruins =>
      { Room.new ruinsName ruinsDescription with detailedDescription := ruinsDetailed }
  | RoomId.cave =>
      { Room.new caveName caveDescription with
        detailedDescription := caveDetailed
        npc := some (NPC.new NPCType.MONSTER monsterDialogue) }
  | RoomId.mountain =>
      { Room.new mountainName mountainDescription with
        detailedDescription := mountainDetailed
        item := ItemType.SWORD }
  | RoomId.valley =>
      { Room.new valleyName valleyDescription with detailedDescription := valleyDetailed }
  | RoomId.lake =>
      { Room.new lakeName lakeDescription with detailedDescription := lakeDetailed }
  | RoomId.village =>
      { Room.new villageName villageDescription with
        detailedDescription := villageDetailed
        npc := some (NPC.new NPCType.VILLAGER villagerDialogue) }
  | RoomId.hiddenRoom =>
      { Room.new hiddenRoomName hiddenRoomDescription with
        detailedDescription := hiddenRoomDetailed
        item := ItemType.TREASURE
        isLocked := true }

/-- The seven `setConnection` calls of `main`, in source order. -/
def connectedRooms : RoomId → Room :=
  let w0 := builtRooms
  let w1 := setConnection w0 RoomId.village Direction.EAST (some RoomId.valley)
  let w2 := setConnection w1 RoomId.village Direction.SOUTH (some RoomId.forest)
  let w3 := setConnection w2 RoomId.valley Direction.EAST (some RoomId.lake)
  let w4 := setConnection w3 RoomId.forest Direction.EAST (some RoomId.ruins)
  let w5 := setConnection w4 RoomId.lake Direction.SOUTH (some RoomId.mountain)
  let w6 := setConnection w5 RoomId.ruins Direction.SOUTH (some RoomId.cave)
  setConnection w6 RoomId.mountain Direction.EAST (some RoomId.hiddenRoom)

/-- One step of the rebuild of the mountain's exit list: the path is added
when `getConnections()[dir] != nullptr`. -/
def Room.addPathIfConnected (r : Room) (dir : Direction) : Room :=
  if (r.connections dir).isSome then r.addPath (directionToString dir) else r

/-- The block of `main` that hides the east path of the mountain: `clearPaths`
followed by the three conditional `addPath` calls for north, south and west. -/
def hideEastPath (w : RoomId → Room) : RoomId → Room :=
  let m0 := (w RoomId.mountain).clearPaths
  let m1 := m0.addPathIfConnected Direction.NORTH
  let m2 := m1.addPathIfConnected Direction.SOUTH
  let m3 := m2.addPathIfConnected Direction.WEST
  Function.update w RoomId.mountain m3

/-- The state in which the game loop is entered: the wired world and the
player created at the forest. -/
def initialState : GameState :=
  { rooms := hideEastPath connectedRooms
    player := Player.new RoomId.forest }

/-! ## Command interpreter -/

/-- How one pass through the body of `while (true)` ends: `next` for `continue`
or falling off the end of the body, `quit` and `victory` for the two `break`s. -/
inductive Outcome where
  | next
  | quit
  | victory
  deriving DecidableEq, Repr

/-- The result of handling one input line. -/
structure Step where
  state : GameState
  output : List Msg
  outcome : Outcome

/-- The `if`/`else if` chain that parses a movement command; `none` is the
final `else` branch (`validDirection = false`). -/
def parseDirection (command : String) : Option Direction :=
  if command = "n" ∨ command = "north" then some Direction.NORTH
  else if command = "e" ∨ command = "east" then some Direction.EAST
  else if command = "s" ∨ command = "south" then some Direction.SOUTH
  else if command = "w" ∨ command = "west" then some Direction.WEST
  else none

/-- The state after `player.currentRoom->X = v`: the current room is replaced. -/
def GameState.setRoom (s : GameState) (r : Room) : GameState :=
  { s with rooms := Function.update s.rooms s.player.currentRoom r }

/-- The body of the `talk` handler. -/
def talk (s : GameState) : List Msg :=
  match s.room.npc with
  | some n => if n.isDefeated then [Msg.noOneToTalk] else [Msg.dialogue n.dialogue]
  | none => [Msg.noOneToTalk]

/-- The body of the `fight` handler. -/
def fight (s : GameState) : GameState × List Msg :=
  match s.room.npc with
  | some n =>
    if n.type = NPCType.MONSTER ∧ n.isDefeated = false then
      if s.player.canFight then
        ({ (s.setRoom { s.room with npc := some { n with isDefeated := true } }) with
            player := s.player.addItem ItemType.KEY },
          [Msg.defeatMonster, Msg.foundKey])
      else (s, [Msg.needSword])
    else (s, [Msg.nothingToFight])
  | none => (s, [Msg.nothingToFight])

/-- The `switch` of the `take` handler that reports the item taken. -/
def takeMessage : ItemType → List Msg
  | ItemType.SWORD => [Msg.takeSword]
  | ItemType.KEY => [Msg.takeKey]
  | ItemType.TREASURE => [Msg.takeTreasure]
  | ItemType.NONE => []

/-- The body of the `take` handler. -/
def take (s : GameState) : GameState × List Msg :=
  if s.room.item ≠ ItemType.NONE then
    if s.room.item = ItemType.TREASURE ∧ s.player.hasItem ItemType.KEY = false then
      (s, [Msg.chestLocked])
    else
      let item := s.room.item
      ({ (s.setRoom { s.room with item := ItemType.NONE }) with
          player := s.player.addItem item },
        takeMessage item)
  else (s, [Msg.nothingToTake])

/-- The movement block for a parsed direction.  The `some` branch is the one
taken when `canMove(direction)` holds; it follows `connections[direction]` and
increments `moveCount`. -/
def move (s : GameState) (direction : Direction) : GameState × List Msg :=
  match s.room.connections direction with
  | some target =>
      ({ s with player := { s.player with currentRoom := target
                                          moveCount := s.player.moveCount.succ } },
        [Msg.youMove (directionToString direction)])
  | none => (s, [Msg.cannotGo])

/-- The output of the `look` handler. -/
def look (s : GameState) : List Msg :=
  if nameHasMountain s.room.name ∧ s.player.hasItem ItemType.KEY then [Msg.mountainHint]
  else s.room.describeLook

/-- The body of the game loop after `std::getline` has stored the line in
`command`: the handlers in source order. -/
def handleCommand (s : GameState) (command : String) : Step :=
  if command = "look" then ⟨s, look s, Outcome.next⟩
  else if command = "help" then ⟨s, [Msg.helpMenu], Outcome.next⟩
  else if command = "quit" then ⟨s, [Msg.quitBanner], Outcome.quit⟩
  else if s.player.hasTreasure then
    ⟨s, [Msg.victoryBanner s.player.moveCount], Outcome.victory⟩
  else if command = "talk" then ⟨s, talk s, Outcome.next⟩
  else if command = "fight" then ⟨(fight s).1, (fight s).2, Outcome.next⟩
  else if command = "take" then ⟨(take s).1, (take s).2, Outcome.next⟩
  else
    match parseDirection command with
    | none => ⟨s, [Msg.unknownCommand], Outcome.next⟩
    | some direction => ⟨(move s direction).1, (move s direction).2, Outcome.next⟩

/-- The head of the loop body: the room is described unless the previous line
(still held in `command`) was `look`, then the prompt is printed. -/
def loopHead (s : GameState) (command : String) : List Msg :=
  (if command ≠ "look" then s.room.describe else []) ++ [Msg.prompt]

/-- The result of running the loop over some input lines. -/
structure Run where
  state : GameState
  command : String
  output : List Msg
  outcome : Outcome

/-- The game loop over the given input lines, entered with the loop variable
`command` holding the previously read line.  It stops at the first `break`;
`Outcome.next` means every line was consumed and the loop is about to start
another pass. -/
def runFrom (s : GameState) (command : String) : List String → Run
  | [] => ⟨s, command, [], Outcome.next⟩
  | line :: rest =>
    let st := handleCommand s line
    match st.outcome with
    | Outcome.next =>
      let r := runFrom st.state line rest
      { r with output := loopHead s command ++ st.output ++ r.output }
    | o => ⟨st.state, line, loopHead s command ++ st.output, o⟩

/-- The game from its start: `command` is the empty string when the loop is
entered. -/
def run (lines : List String) : Run :=
  runFrom initialState "" lines

/-- A state the game loop can be in after any number of input lines. -/
inductive Reachable : GameState → Prop where
  | init : Reachable initialState
  | step (s : GameState) (line : String) :
      Reachable s → (handleCommand s line).outcome = Outcome.next →
      Reachable (handleCommand s line).state

/-! ## Standard input and the loop as written -/

/-- The standard input stream `std::cin`: the characters not yet read and
whether the stream is still good (neither `eofbit` nor `failbit` set). -/
structure Stream where
  chars : List Char
  good : Bool
  deriving DecidableEq, Repr

/-- The extraction loop of `std::getline`: characters are taken up to the first
newline, which is consumed and dropped; `none` for the rest means the end of
the input was hit before a newline. -/
def readLine : List Char → List Char × Option (List Char)
  | [] => ([], none)
  | ch :: rest =>
    if ch = '\n' then ([], some rest)
    else ((ch :: (readLine rest).1), (readLine rest).2)

/-- The call `std::getline(std::cin, command)`.  When the stream is not good the
sentry fails and `command` keeps its old value.  Otherwise `command` is erased
and filled with the characters up to the next newline; hitting the end of the
input sets `eofbit` (and `failbit` when nothing was read), so the stream is no
longer good. -/
def getline (i : Stream) (command : String) : Stream × String :=
  if i.good then
    match (readLine i.chars).2 with
    | some rest => (⟨rest, true⟩, String.mk (readLine i.chars).1)
    | none => (⟨[], false⟩, String.mk (readLine i.chars).1)
  else (i, command)

/-- The loop `while (true)` of `main`, run for at most `fuel` passes: the head
render, the prompt, `std::getline` and the handlers.  The outcome `next` means
the loop is still running when the fuel is used up. -/
def mainLoop : Nat → Stream → String → GameState → Run
  | 0, _, command, s => ⟨s, command, [], Outcome.next⟩
  | fuel + 1, i, command, s =>
    let st := handleCommand s (getline i command).2
    match st.outcome with
    | Outcome.next =>
      let r := mainLoop fuel (getline i command).1 (getline i command).2 st.state
      { r with output := loopHead s command ++ st.output ++ r.output }
    | o => ⟨st.state, (getline i command).2, loopHead s command ++ st.output, o⟩

/-- The text that standard input holds when the given lines are entered, each
followed by a newline. -/
def feed : List String → List Char
  | [] => []
  | line :: rest => line.data ++ '\n' :: feed rest

/-! ## Derived notions used by the statements -/

/-- Whether the line is a movement command that succeeds in `s`: it parses to a
direction, the victory check does not intercept it, and the current room has a
neighbour in that direction. -/
def moveSucceeds (s : GameState) (line : String) : Bool :=
  match parseDirection line with
  | some direction => !s.player.hasTreasure && s.room.canMove direction
  | none => false

/-- The number of successful moves made while the loop runs over the lines. -/
def successfulMoves (s : GameState) : List String → Nat
  | [] => 0
  | line :: rest =>
    (if moveSucceeds s line then 1 else 0) +
      (match (handleCommand s line).outcome with
       | Outcome.next => successfulMoves (handleCommand s line).state rest
       | _ => 0)

/-- The largest value of an `int`. -/
def CInt.max : CInt :=
  ⟨2147483647, by decide⟩

/-- The initial state with the move counter at the largest `int`. -/
def counterAtMax : GameState :=
  { initialState with player := { Player.new RoomId.forest with moveCount := CInt.max } }

/-- A play-through that fetches the sword at the mountain and the key in the
cave and then walks to the hidden room. -/
def approachLines : List String :=
  ["n", "e", "e", "s", "take", "n", "w", "w", "s", "e", "s", "fight", "n", "w", "n", "e", "e",
    "s", "e"]

/-- The play-through `approachLines` followed by the `take` of the treasure. -/
def winningLines : List String :=
  approachLines ++ ["take"]

/-- The state a won fight produces: the occupant `n` of the current room is
marked defeated and the key is added to the inventory. -/
def afterWin (s : GameState) (n : NPC) : GameState :=
  { (s.setRoom { s.room with npc := some { n with isDefeated := true } }) with
      player := s.player.addItem ItemType.KEY }

/-- The play-through that fetches the sword and walks into the cave. -/
def armedCaveLines : List String :=
  ["n", "e", "e", "s", "take", "n", "w", "w", "s", "e", "s"]

/-- The parts of a room that no command changes. -/
def Room.sameLayout (a b : Room) : Prop :=
  a.connections = b.connections ∧ a.availablePaths = b.availablePaths ∧
    a.numPaths = b.numPaths ∧ a.name = b.name ∧ a.description = b.description ∧
    a.detailedDescription = b.detailedDescription ∧ a.isLocked = b.isLocked

/-- Whether the event is the victory banner. -/
def Msg.isVictoryBanner : Msg → Bool
  | Msg.victoryBanner _ => true
  | _ => false

/-- The input that walks east to the ruins and back west to the forest `k`
times. -/
def pacing : Nat → List String
  | 0 => []
  | k + 1 => "e" :: "w" :: pacing k

/-- The monster of the cave with the given defeated flag. -/
def caveMonster (defeated : Bool) : NPC :=
  { type := NPCType.MONSTER, isDefeated := defeated, dialogue := monsterDialogue }

/-- The eight `Room` objects of `main`, listed. -/
def allRooms : List RoomId :=
  [RoomId.forest, RoomId.ruins, RoomId.cave, RoomId.mountain, RoomId.valley, RoomId.lake,
    RoomId.village, RoomId.hiddenRoom]

/-- The adjacency as the spec words it (section 4.1): the seven bidirectional
pairs village-valley (E/W), village-forest (S/N), valley-lake (E/W),
forest-ruins (E/W), lake-mountain (S/N), ruins-cave (S/N) and mountain-hidden
room (E/W), written as fourteen directed edges `(from, direction, to)`. -/
def specEdges : List (RoomId × Direction × RoomId) :=
  [(RoomId.village, Direction.EAST, RoomId.valley), (RoomId.valley, Direction.WEST, RoomId.village),
    (RoomId.village, Direction.SOUTH, RoomId.forest), (RoomId.forest, Direction.NORTH, RoomId.village),
    (RoomId.valley, Direction.EAST, RoomId.lake), (RoomId.lake, Direction.WEST, RoomId.valley),
    (RoomId.forest, Direction.EAST, RoomId.ruins), (RoomId.ruins, Direction.WEST, RoomId.forest),
    (RoomId.lake, Direction.SOUTH, RoomId.mountain), (RoomId.mountain, Direction.NORTH, RoomId.lake),
    (RoomId.ruins, Direction.SOUTH, RoomId.cave), (RoomId.cave, Direction.NORTH, RoomId.ruins),
    (RoomId.mountain, Direction.EAST, RoomId.hiddenRoom),
    (RoomId.hiddenRoom, Direction.WEST, RoomId.mountain)]

/-- The fourteen command tokens as the spec lists them (section 6). -/
def commandTokens : List String :=
  ["look", "help", "quit", "talk", "fight", "take", "n", "north", "e", "east", "s", "south", "w",
    "west"]

/-- Whether the string consists of whitespace characters only. -/
def allWhitespace (w : String) : Bool :=
  w.data.all Char.isWhitespace

/-- The play-through `approachLines` without its last step: the player stands
at the mountain holding sword and key. -/
def keyAtMountainLines : List String :=
  ["n", "e", "e", "s", "take", "n", "w", "w", "s", "e", "s", "fight", "n", "w", "n", "e", "e",
    "s"]

/-- The four directions in enum order. -/
def allDirections : List Direction :=
  [Direction.NORTH, Direction.EAST, Direction.SOUTH, Direction.WEST]

/-- Whether the exit name `p` is the name of a direction in which the room has
a neighbour. -/
def Room.nameConnected (r : Room) (p : String) : Bool :=
  allDirections.any (fun d => directionToString d == p && (r.connections d).isSome)

/-- Whether the event is the first line of `Room::describe`. -/
def Msg.isRoomEntry : Msg → Bool
  | Msg.roomEntry _ _ => true
  | _ => false

/-- The item the world keeps in room `r` for a player holding the given
inventory: the sword lies at the mountain and the treasure in the hidden room
until they are taken. -/
def itemLeft (p : Player) : RoomId → ItemType
  | RoomId.mountain => if p.hasItem ItemType.SWORD then ItemType.NONE else ItemType.SWORD
  | RoomId.hiddenRoom =>
      if p.hasItem ItemType.TREASURE then ItemType.NONE else ItemType.TREASURE
  | _ => ItemType.NONE

/-- The place of a room along the single corridor the map forms:
cave, ruins, forest, village, valley, lake, mountain, hidden room. -/
def position : RoomId → Nat
  | RoomId.cave => 0
  | RoomId.ruins => 1
  | RoomId.forest => 2
  | RoomId.village => 3
  | RoomId.valley => 4
  | RoomId.lake => 5
  | RoomId.mountain => 6
  | RoomId.hiddenRoom => 7

/-- A lower bound on the successful moves still needed to hold the treasure:
without the sword the player must reach the mountain (place 6), walk the 6
steps to the cave and the 7 steps to the hidden room; with the sword but no
key, reach the cave and walk 7 steps; with the key, reach the hidden room. -/
def movesToGo (s : GameState) : Nat :=
  if s.player.hasItem ItemType.TREASURE then 0
  else if s.player.hasItem ItemType.KEY then 7 - position s.player.currentRoom
  else if s.player.hasItem ItemType.SWORD then position s.player.currentRoom + 7
  else (6 - position s.player.currentRoom) + (position s.player.currentRoom - 6) + 13

/-- The initial state with the move counter sixteen below the largest `int`. -/
def nearMaxState : GameState :=
  { initialState with
    player := { Player.new RoomId.forest with moveCount := ⟨2147483632, by decide⟩ } }

/-! ## General lemmas about the interpreter -/

/-- Every line leaves the state alone or applies one of the three mutating
handlers, which are reached only while the has-treasure flag is unset. -/
theorem handleCommand_state_cases (s : GameState) (line : String) :
    (handleCommand s line).state = s ∨
      (s.player.hasTreasure = false ∧
        ((handleCommand s line).state = (fight s).1 ∨
          (handleCommand s line).state = (take s).1 ∨
          ∃ d, parseDirection line = some d ∧ (handleCommand s line).state = (move s d).1)) := by
  unfold handleCommand
  split_ifs with h1 h2 h3 h4 h5 h6 h7
  · left; rfl
  · left; rfl
  · left; rfl
  · left; rfl
  · left; rfl
  · right; exact ⟨by simpa using h4, Or.inl rfl⟩
  · right; exact ⟨by simpa using h4, Or.inr (Or.inl rfl)⟩
  · cases hp : parseDirection line with
    | none => left; rfl
    | some d => right; exact ⟨by simpa using h4, Or.inr (Or.inr ⟨d, rfl, rfl⟩)⟩

/-- A line that ends the loop does not touch the state. -/
theorem handleCommand_break_state (s : GameState) (line : String)
    (h : (handleCommand s line).outcome ≠ Outcome.next) : (handleCommand s line).state = s := by
  revert h
  unfold handleCommand
  split_ifs
  any_goals (intro _; rfl)
  all_goals first
    | (intro h; exact absurd rfl h)
    | (cases parseDirection line <;> (intro h; exact absurd rfl h))

/-- Induction over reachable states, one case per mutating handler. -/
theorem reachable_induction (P : GameState → Prop) (h0 : P initialState)
    (hf : ∀ s, Reachable s → P s → s.player.hasTreasure = false → P (fight s).1)
    (ht : ∀ s, Reachable s → P s → s.player.hasTreasure = false → P (take s).1)
    (hm : ∀ s d, Reachable s → P s → s.player.hasTreasure = false → P (move s d).1) :
    ∀ s, Reachable s → P s := by
  intro s hs
  induction hs with
  | init => exact h0
  | step s line hr _ ih =>
    rcases handleCommand_state_cases s line with h | ⟨hT, h | h | ⟨d, _, h⟩⟩
    · rw [h]; exact ih
    · rw [h]; exact hf s hr ih hT
    · rw [h]; exact ht s hr ih hT
    · rw [h]; exact hm s d hr ih hT

/-- The state a run ends in is reachable. -/
theorem reachable_runFrom (s : GameState) (c : String) (lines : List String)
    (hs : Reachable s) : Reachable (runFrom s c lines).state := by
  induction lines generalizing s c with
  | nil => exact hs
  | cons line rest ih =>
    unfold runFrom
    cases ho : (handleCommand s line).outcome with
    | next =>
      simp only [ho]
      exact ih _ _ (Reachable.step s line hs ho)
    | quit =>
      simp only [ho]
      rw [handleCommand_break_state s line (by rw [ho]; decide)]
      exact hs
    | victory =>
      simp only [ho]
      rw [handleCommand_break_state s line (by rw [ho]; decide)]
      exact hs

/-- The state after the line `fight`. -/
theorem handleCommand_fight_state (s : GameState) :
    (handleCommand s "fight").state = if s.player.hasTreasure then s else (fight s).1 := by
  cases h : s.player.hasTreasure <;> simp [handleCommand, h]

/-- The output of the line `fight` when the victory check does not intercept it. -/
theorem handleCommand_fight_output (s : GameState) (h : s.player.hasTreasure = false) :
    (handleCommand s "fight").output = (fight s).2 := by
  simp [handleCommand, h]

/-- A fight against an undefeated monster with a sword in hand is won. -/
theorem fight_win (s : GameState) (n : NPC) (hn : s.room.npc = some n)
    (hM : n.type = NPCType.MONSTER) (hD : n.isDefeated = false)
    (hf : s.player.canFight = true) :
    fight s = (afterWin s n, [Msg.defeatMonster, Msg.foundKey]) := by
  simp [fight, hn, hM, hD, hf, afterWin]

/-- After a won fight the occupant of the current room is defeated. -/
theorem afterWin_npc (s : GameState) (n : NPC) :
    (afterWin s n).room.npc = some { n with isDefeated := true } := by
  simp [afterWin, GameState.room, GameState.setRoom, Player.addItem]

/-- The fight handler never touches the has-treasure flag. -/
theorem fight_hasTreasure (s : GameState) :
    (fight s).1.player.hasTreasure = s.player.hasTreasure := by
  unfold fight
  split
  · split_ifs <;> simp [Player.addItem]
  · rfl

/-- A second fight finds nothing to fight, unless the first changed nothing. -/
theorem fight_fight (s : GameState) :
    fight (fight s).1 = ((fight s).1, [Msg.nothingToFight]) ∨ (fight s).1 = s := by
  cases hn : s.room.npc with
  | none => right; simp [fight, hn]
  | some n =>
    by_cases hc : n.type = NPCType.MONSTER ∧ n.isDefeated = false
    · cases hf : s.player.canFight
      · right; simp [fight, hn, hc, hf]
      · left
        rw [fight_win s n hn hc.1 hc.2 hf]
        simp [fight, afterWin_npc]
    · right; simp [fight, hn, hc]

/-- The fight handler is idempotent on states. -/
theorem fight_idem (s : GameState) : (fight (fight s).1).1 = (fight s).1 := by
  rcases fight_fight s with h | h
  · rw [h]
  · rw [h, h]

/-- Without a sword the fight handler changes nothing. -/
theorem fight_without_sword_eq (s : GameState)
    (hS : s.player.hasItem ItemType.SWORD = false) : (fight s).1 = s := by
  cases hn : s.room.npc with
  | none => simp [fight, hn]
  | some n =>
    by_cases hc : n.type = NPCType.MONSTER ∧ n.isDefeated = false
    · simp [fight, hn, hc, Player.canFight, hS]
    · simp [fight, hn, hc]

/-- In every reachable state no room holds a key, the has-treasure flag implies
the key is held, and the key implies the sword is held. -/
theorem reachable_inventory_chain :
    ∀ s, Reachable s →
      (∀ r, (s.rooms r).item ≠ ItemType.KEY) ∧
      (s.player.hasTreasure = true → s.player.hasItem ItemType.KEY = true) ∧
      (s.player.hasItem ItemType.KEY = true → s.player.hasItem ItemType.SWORD = true) := by
  apply reachable_induction
  · refine ⟨fun r => ?_, by decide, by decide⟩
    cases r <;> decide
  · intro s _ ih hT
    obtain ⟨h1, h2, h3⟩ := ih
    cases hn : s.room.npc with
    | none =>
      have e : (fight s).1 = s := by simp [fight, hn]
      rw [e]; exact ⟨h1, h2, h3⟩
    | some n =>
      by_cases hc : n.type = NPCType.MONSTER ∧ n.isDefeated = false
      · cases hf : s.player.canFight
        · have e : (fight s).1 = s := by simp [fight, hn, hc, hf]
          rw [e]; exact ⟨h1, h2, h3⟩
        · rw [fight_win s n hn hc.1 hc.2 hf]
          refine ⟨fun r => ?_, ?_, ?_⟩
          · by_cases hr : r = s.player.currentRoom
            · subst hr
              simpa [afterWin, GameState.setRoom, GameState.room] using h1 _
            · simpa [afterWin, GameState.setRoom, Function.update_noteq hr] using h1 r
          · simp [afterWin, Player.addItem, Player.hasItem]
          · intro _
            simpa [afterWin, Player.addItem, Player.hasItem, Player.canFight] using hf
      · have e : (fight s).1 = s := by simp [fight, hn, hc]
        rw [e]; exact ⟨h1, h2, h3⟩
  · intro s _ ih hT
    obtain ⟨h1, h2, h3⟩ := ih
    by_cases hI : s.room.item = ItemType.NONE
    · have e : (take s).1 = s := by simp [take, hI]
      rw [e]; exact ⟨h1, h2, h3⟩
    · by_cases hL : s.room.item = ItemType.TREASURE ∧ s.player.hasItem ItemType.KEY = false
      · have e : (take s).1 = s := by simp [take, hI, hL]
        rw [e]; exact ⟨h1, h2, h3⟩
      · have hk : s.room.item ≠ ItemType.KEY := h1 _
        have hst : (take s).1 = { (s.setRoom { s.room with item := ItemType.NONE }) with
            player := s.player.addItem s.room.item } := by
          simp [take, hI, hL]
        rw [hst]
        refine ⟨fun r => ?_, ?_, ?_⟩
        · by_cases hr : r = s.player.currentRoom
          · subst hr
            simp [GameState.setRoom]
          · simpa [GameState.setRoom, Function.update_noteq hr] using h1 r
        · cases hi : s.room.item <;> simp_all [Player.addItem, Player.hasItem]
        · cases hi : s.room.item <;> simp_all [Player.addItem, Player.hasItem]
  · intro s d _ ih hT
    obtain ⟨h1, h2, h3⟩ := ih
    unfold move
    cases s.room.connections d with
    | none => exact ⟨h1, h2, h3⟩
    | some t => exact ⟨h1, h2, h3⟩

/-- Below the largest `int` the increment adds one. -/
theorem CInt.succ_val (c : CInt) (h : c.val < 2147483647) : c.succ.val = c.val + 1 := by
  have h1 := c.property.1
  show wrapInt32 (c.val + 1) = c.val + 1
  unfold wrapInt32
  omega

/-- The fight handler never touches the move counter. -/
theorem fight_moveCount (s : GameState) :
    (fight s).1.player.moveCount = s.player.moveCount := by
  unfold fight
  split
  · split_ifs <;> simp [Player.addItem]
  · rfl

/-- The take handler never touches the move counter. -/
theorem take_moveCount (s : GameState) :
    (take s).1.player.moveCount = s.player.moveCount := by
  unfold take
  split_ifs
  · rfl
  · cases s.room.item <;> simp [Player.addItem]
  · rfl

/-- The movement parser accepts exactly the eight movement tokens. -/
theorem parseDirection_tokens (line : String) (d : Direction) :
    parseDirection line = some d ↔
      (d = Direction.NORTH ∧ (line = "n" ∨ line = "north")) ∨
      (d = Direction.EAST ∧ (line = "e" ∨ line = "east")) ∨
      (d = Direction.SOUTH ∧ (line = "s" ∨ line = "south")) ∨
      (d = Direction.WEST ∧ (line = "w" ∨ line = "west")) := by
  unfold parseDirection
  split_ifs with h1 h2 h3 h4
  · rcases h1 with h | h <;> subst h <;> cases d <;> simp
  · rcases h2 with h | h <;> subst h <;> cases d <;> simp
  · rcases h3 with h | h <;> subst h <;> cases d <;> simp
  · rcases h4 with h | h <;> subst h <;> cases d <;> simp
  · simp only [not_or] at h1 h2 h3 h4
    simp [h1.1, h1.2, h2.1, h2.2, h3.1, h3.2, h4.1, h4.2]

/-- A movement token is none of the six other commands. -/
theorem parseDirection_not_command (line : String) (d : Direction)
    (h : parseDirection line = some d) :
    line ≠ "look" ∧ line ≠ "help" ∧ line ≠ "quit" ∧ line ≠ "talk" ∧ line ≠ "fight" ∧
      line ≠ "take" := by
  rw [parseDirection_tokens] at h
  rcases h with ⟨_, h | h⟩ | ⟨_, h | h⟩ | ⟨_, h | h⟩ | ⟨_, h | h⟩ <;> subst h <;> decide

/-- A movement token reaches the movement block while the has-treasure flag is
unset. -/
theorem handleCommand_move (s : GameState) (line : String) (d : Direction)
    (hT : s.player.hasTreasure = false) (h : parseDirection line = some d) :
    handleCommand s line = ⟨(move s d).1, (move s d).2, Outcome.next⟩ := by
  obtain ⟨h1, h2, h3, h4, h5, h6⟩ := parseDirection_not_command line d h
  simp [handleCommand, h1, h2, h3, h4, h5, h6, hT, h]

/-- The move counter after any line: incremented exactly on a successful move. -/
theorem handleCommand_moveCount (s : GameState) (line : String) :
    (handleCommand s line).state.player.moveCount =
      if moveSucceeds s line then s.player.moveCount.succ else s.player.moveCount := by
  cases hp : parseDirection line with
  | none =>
    have hm : moveSucceeds s line = false := by simp [moveSucceeds, hp]
    rw [hm]
    rcases handleCommand_state_cases s line with h | ⟨_, h | h | ⟨d, hd, _⟩⟩
    · rw [h]; rfl
    · rw [h]; exact fight_moveCount s
    · rw [h]; exact take_moveCount s
    · rw [hp] at hd; cases hd
  | some d =>
    cases hT : s.player.hasTreasure
    · rw [handleCommand_move s line d hT hp]
      cases hc : s.room.connections d <;> simp [moveSucceeds, hp, hT, Room.canMove, move, hc]
    · have hm : moveSucceeds s line = false := by simp [moveSucceeds, hp, hT]
      rw [hm]
      rcases handleCommand_state_cases s line with h | ⟨h, _⟩
      · rw [h]; rfl
      · rw [hT] at h; cases h

/-- A movement succeeds exactly for a movement token, with the has-treasure flag
unset and a neighbour in the parsed direction. -/
theorem moveSucceeds_iff (s : GameState) (line : String) :
    moveSucceeds s line = true ↔
      (line ∈ ["n", "north", "e", "east", "s", "south", "w", "west"] ∧
        s.player.hasTreasure = false ∧
        ∃ d t, parseDirection line = some d ∧ s.room.connections d = some t) := by
  constructor
  · intro h
    unfold moveSucceeds at h
    cases hp : parseDirection line with
    | none => rw [hp] at h; cases h
    | some d =>
      rw [hp] at h
      simp only [Bool.and_eq_true, Bool.not_eq_true', Room.canMove] at h
      obtain ⟨t, ht⟩ := Option.isSome_iff_exists.mp h.2
      refine ⟨?_, h.1, d, t, rfl, ht⟩
      rw [parseDirection_tokens] at hp
      rcases hp with ⟨_, h | h⟩ | ⟨_, h | h⟩ | ⟨_, h | h⟩ | ⟨_, h | h⟩ <;> subst h <;> decide
  · rintro ⟨_, hT, d, t, hp, ht⟩
    simp [moveSucceeds, hp, hT, Room.canMove, ht]

/-- While the counter stays representable, a run adds the number of successful
moves to it. -/
theorem runFrom_moveCount (lines : List String) :
    ∀ (s : GameState) (c : String),
      s.player.moveCount.val + successfulMoves s lines ≤ 2147483647 →
      (runFrom s c lines).state.player.moveCount.val =
        s.player.moveCount.val + successfulMoves s lines := by
  induction lines with
  | nil => intro s c _; simp [runFrom, successfulMoves]
  | cons line rest ih =>
    intro s c hb
    have hstep := handleCommand_moveCount s line
    unfold successfulMoves at hb ⊢
    unfold runFrom
    cases ho : (handleCommand s line).outcome with
    | next =>
      simp only [ho] at hb ⊢
      cases hm : moveSucceeds s line
      · simp only [hm, Bool.false_eq_true, if_false] at hstep hb ⊢
        have := ih (handleCommand s line).state line (by rw [hstep]; omega)
        rw [this, hstep]; omega
      · simp only [hm, if_true] at hstep hb ⊢
        have hv : (handleCommand s line).state.player.moveCount.val =
            s.player.moveCount.val + 1 := by
          rw [hstep]; exact CInt.succ_val _ (by omega)
        have := ih (handleCommand s line).state line (by rw [hv]; omega)
        rw [this, hv]; push_cast; omega
    | quit =>
      simp only [ho] at hb ⊢
      have hs := handleCommand_break_state s line (by rw [ho]; decide)
      have hm : moveSucceeds s line = false := by
        cases hm : moveSucceeds s line
        · rfl
        · exfalso
          obtain ⟨_, hT, d, t, hp, ht⟩ := (moveSucceeds_iff s line).mp hm
          rw [handleCommand_move s line d hT hp] at ho
          cases ho
      rw [hs, hm]; simp
    | victory =>
      simp only [ho] at hb ⊢
      have hs := handleCommand_break_state s line (by rw [ho]; decide)
      have hm : moveSucceeds s line = false := by
        cases hm : moveSucceeds s line
        · rfl
        · exfalso
          obtain ⟨_, hT, d, t, hp, ht⟩ := (moveSucceeds_iff s line).mp hm
          rw [handleCommand_move s line d hT hp] at ho
          cases ho
      rw [hs, hm]; simp

/-- Every room has the same layout as itself. -/
theorem Room.sameLayout_refl (a : Room) : a.sameLayout a :=
  ⟨rfl, rfl, rfl, rfl, rfl, rfl, rfl⟩

/-- The fight handler keeps the layout of every room. -/
theorem fight_layout (s : GameState) (r : RoomId) :
    ((fight s).1.rooms r).sameLayout (s.rooms r) := by
  cases hn : s.room.npc with
  | none =>
    have e : (fight s).1 = s := by simp [fight, hn]
    rw [e]; exact Room.sameLayout_refl _
  | some n =>
    by_cases hc : n.type = NPCType.MONSTER ∧ n.isDefeated = false
    · cases hf : s.player.canFight
      · have e : (fight s).1 = s := by simp [fight, hn, hc, hf]
        rw [e]; exact Room.sameLayout_refl _
      · rw [fight_win s n hn hc.1 hc.2 hf]
        by_cases hr : r = s.player.currentRoom
        · subst hr
          simp [afterWin, GameState.setRoom, GameState.room, Room.sameLayout]
        · simp [afterWin, GameState.setRoom, Function.update_noteq hr, Room.sameLayout]
    · have e : (fight s).1 = s := by simp [fight, hn, hc]
      rw [e]; exact Room.sameLayout_refl _

/-- The take handler keeps the layout of every room. -/
theorem take_layout (s : GameState) (r : RoomId) :
    ((take s).1.rooms r).sameLayout (s.rooms r) := by
  unfold take
  split_ifs
  · exact Room.sameLayout_refl _
  · by_cases hr : r = s.player.currentRoom
    · subst hr
      simp [GameState.setRoom, GameState.room, Room.sameLayout]
    · simp [GameState.setRoom, Function.update_noteq hr, Room.sameLayout]
  · exact Room.sameLayout_refl _

/-- The movement block changes no room. -/
theorem move_rooms (s : GameState) (d : Direction) : (move s d).1.rooms = s.rooms := by
  unfold move
  cases s.room.connections d <;> rfl

/-- In every reachable state each room has the layout the world builder gave it. -/
theorem reachable_layout (s : GameState) (hs : Reachable s) :
    ∀ r, (s.rooms r).sameLayout (initialState.rooms r) := by
  revert s
  apply reachable_induction
  · intro r; exact Room.sameLayout_refl _
  · intro s _ ih _ r
    have h := fight_layout s r
    have h0 := ih r
    unfold Room.sameLayout at *
    refine ⟨h.1.trans h0.1, h.2.1.trans h0.2.1, h.2.2.1.trans h0.2.2.1, h.2.2.2.1.trans h0.2.2.2.1,
      h.2.2.2.2.1.trans h0.2.2.2.2.1, h.2.2.2.2.2.1.trans h0.2.2.2.2.2.1,
      h.2.2.2.2.2.2.trans h0.2.2.2.2.2.2⟩
  · intro s _ ih _ r
    have h := take_layout s r
    have h0 := ih r
    unfold Room.sameLayout at *
    refine ⟨h.1.trans h0.1, h.2.1.trans h0.2.1, h.2.2.1.trans h0.2.2.1, h.2.2.2.1.trans h0.2.2.2.1,
      h.2.2.2.2.1.trans h0.2.2.2.2.1, h.2.2.2.2.2.1.trans h0.2.2.2.2.2.1,
      h.2.2.2.2.2.2.trans h0.2.2.2.2.2.2⟩
  · intro s d _ ih _ r
    rw [move_rooms]; exact ih r

/-- The line `look` is handled first and continues the loop. -/
theorem handleCommand_look (t : GameState) :
    handleCommand t "look" = ⟨t, look t, Outcome.next⟩ := by
  simp [handleCommand]

/-- The line `help` continues the loop. -/
theorem handleCommand_help (t : GameState) :
    handleCommand t "help" = ⟨t, [Msg.helpMenu], Outcome.next⟩ := by
  simp [handleCommand]

/-- The line `quit` ends the loop. -/
theorem handleCommand_quit (t : GameState) :
    handleCommand t "quit" = ⟨t, [Msg.quitBanner], Outcome.quit⟩ := by
  simp [handleCommand]

/-- With the has-treasure flag set, every line but `look`, `help` and `quit`
ends the loop with the victory banner. -/
theorem handleCommand_victory (t : GameState) (line : String)
    (hT : t.player.hasTreasure = true)
    (h1 : line ≠ "look") (h2 : line ≠ "help") (h3 : line ≠ "quit") :
    handleCommand t line = ⟨t, [Msg.victoryBanner t.player.moveCount], Outcome.victory⟩ := by
  simp [handleCommand, h1, h2, h3, hT]

/-- The `look` handler never prints the victory banner. -/
theorem look_no_banner (t : GameState) : (look t).any Msg.isVictoryBanner = false := by
  unfold look
  split_ifs
  · rfl
  · have e1 : ∀ o, (npcLine o).any Msg.isVictoryBanner = false := by
      intro o
      cases o with
      | none => rfl
      | some n =>
        simp only [npcLine]
        split_ifs
        · rfl
        · cases n.type <;> rfl
    have e2 : ∀ i, (itemLine i).any Msg.isVictoryBanner = false := by
      intro i; cases i <;> rfl
    simp only [Room.describeLook, Room.showAvailablePathsAndItems, List.any_cons,
      List.any_append, Msg.isVictoryBanner, Bool.false_or, e1, e2, Bool.or_false]
    split_ifs <;> rfl

/-- Pacing between the forest and the ruins makes two successful moves per round. -/
theorem successfulMoves_pacing (k : Nat) :
    ∀ s : GameState, s.rooms = initialState.rooms → s.player.currentRoom = RoomId.forest →
      s.player.hasTreasure = false → successfulMoves s (pacing k) = 2 * k := by
  induction k with
  | zero => intro s _ _ _; rfl
  | succ k ih =>
    intro s hr hc hT
    have he : s.room.connections Direction.EAST = some RoomId.ruins := by
      unfold GameState.room; rw [hr, hc]; decide
    have h1 : handleCommand s "e" = ⟨(move s Direction.EAST).1, (move s Direction.EAST).2,
        Outcome.next⟩ := handleCommand_move s "e" Direction.EAST hT (by decide)
    have hs1 : moveSucceeds s "e" = true :=
      (moveSucceeds_iff s "e").mpr ⟨by decide, hT, Direction.EAST, RoomId.ruins, by decide, he⟩
    have hr1 : (move s Direction.EAST).1.rooms = initialState.rooms := by
      rw [move_rooms]; exact hr
    have hc1 : (move s Direction.EAST).1.player.currentRoom = RoomId.ruins := by
      simp [move, he]
    have hT1 : (move s Direction.EAST).1.player.hasTreasure = false := by
      simp [move, he, hT]
    generalize (move s Direction.EAST).1 = s1 at h1 hr1 hc1 hT1
    have hw : s1.room.connections Direction.WEST = some RoomId.forest := by
      unfold GameState.room; rw [hr1, hc1]; decide
    have h2 : handleCommand s1 "w" = ⟨(move s1 Direction.WEST).1, (move s1 Direction.WEST).2,
        Outcome.next⟩ := handleCommand_move s1 "w" Direction.WEST hT1 (by decide)
    have hs2 : moveSucceeds s1 "w" = true :=
      (moveSucceeds_iff s1 "w").mpr ⟨by decide, hT1, Direction.WEST, RoomId.forest, by decide, hw⟩
    have ih2 := ih (move s1 Direction.WEST).1 (by rw [move_rooms]; exact hr1)
      (by simp [move, hw]) (by simp [move, hw, hT1])
    simp only [pacing, successfulMoves, hs1, h1, hs2, h2, ih2, if_true]
    ring

/-- One pass of the loop that continues. -/
theorem runFrom_cons_next (s : GameState) (c line : String) (rest : List String)
    (h : (handleCommand s line).outcome = Outcome.next) :
    (runFrom s c (line :: rest)).state = (runFrom (handleCommand s line).state line rest).state ∧
    (runFrom s c (line :: rest)).outcome =
      (runFrom (handleCommand s line).state line rest).outcome ∧
    (runFrom s c (line :: rest)).output =
      loopHead s c ++ (handleCommand s line).output ++
        (runFrom (handleCommand s line).state line rest).output ∧
    (runFrom s c (line :: rest)).command =
      (runFrom (handleCommand s line).state line rest).command := by
  simp only [runFrom, h, and_self]

/-- One pass of the loop that ends it. -/
theorem runFrom_cons_break (s : GameState) (c line : String) (rest : List String)
    (h : (handleCommand s line).outcome ≠ Outcome.next) :
    (runFrom s c (line :: rest)).state = (handleCommand s line).state ∧
    (runFrom s c (line :: rest)).outcome = (handleCommand s line).outcome ∧
    (runFrom s c (line :: rest)).output = loopHead s c ++ (handleCommand s line).output ∧
    (runFrom s c (line :: rest)).command = line := by
  cases ho : (handleCommand s line).outcome with
  | next => exact absurd ho h
  | quit => simp only [runFrom, ho, and_self]
  | victory => simp only [runFrom, ho, and_self]

/-- A run over two blocks of lines continues from where the first block left
off, as long as the first block did not end the loop. -/
theorem runFrom_append (l1 l2 : List String) :
    ∀ (s : GameState) (c : String), (runFrom s c l1).outcome = Outcome.next →
      (runFrom s c (l1 ++ l2)).state =
          (runFrom (runFrom s c l1).state (runFrom s c l1).command l2).state ∧
      (runFrom s c (l1 ++ l2)).outcome =
          (runFrom (runFrom s c l1).state (runFrom s c l1).command l2).outcome ∧
      (runFrom s c (l1 ++ l2)).output =
          (runFrom s c l1).output ++
            (runFrom (runFrom s c l1).state (runFrom s c l1).command l2).output := by
  induction l1 with
  | nil => intro s c _; simp [runFrom]
  | cons line rest ih =>
    intro s c h
    cases ho : (handleCommand s line).outcome with
    | next =>
      have e1 := runFrom_cons_next s c line rest ho
      have e2 := runFrom_cons_next s c line (rest ++ l2) ho
      rw [List.cons_append, e2.1, e2.2.1, e2.2.2.1, e1.1, e1.2.2.1, e1.2.2.2]
      rw [e1.2.1] at h
      obtain ⟨h1, h2, h3⟩ := ih (handleCommand s line).state line h
      refine ⟨h1, h2, ?_⟩
      simp only [h3, List.append_assoc]
    | quit =>
      have e := runFrom_cons_break s c line rest (by rw [ho]; decide)
      rw [e.2.1, ho] at h; cases h
    | victory =>
      have e := runFrom_cons_break s c line rest (by rw [ho]; decide)
      rw [e.2.1, ho] at h; cases h

/-- The world builder puts no monster outside the cave. -/
theorem initial_monster_only_in_cave :
    ∀ r, r ≠ RoomId.cave → ((initialState.rooms r).npc.map NPC.type) ≠ some NPCType.MONSTER := by
  intro r
  cases r <;> decide

/-- The take handler changes no occupant. -/
theorem take_npc (s : GameState) (r : RoomId) : ((take s).1.rooms r).npc = (s.rooms r).npc := by
  unfold take
  split_ifs
  · rfl
  · by_cases hr : r = s.player.currentRoom
    · subst hr; simp [GameState.setRoom, GameState.room]
    · simp [GameState.setRoom, Function.update_noteq hr]
  · rfl

/-- The take handler adds at most the item of the current room to the inventory. -/
theorem take_hasItem (s : GameState) (i : ItemType) (hi : i ≠ s.room.item) :
    (take s).1.player.hasItem i = s.player.hasItem i := by
  unfold take
  split_ifs
  · rfl
  · cases h : s.room.item <;> cases i <;> simp_all [Player.addItem, Player.hasItem]
  · rfl

/-- In every reachable state the has-treasure flag mirrors the treasure slot of
the inventory. -/
theorem reachable_hasTreasure :
    ∀ s, Reachable s → (s.player.hasTreasure = s.player.hasItem ItemType.TREASURE) := by
  apply reachable_induction
  · decide
  · intro s _ ih _
    cases hn : s.room.npc with
    | none =>
      have e : (fight s).1 = s := by simp [fight, hn]
      rw [e]; exact ih
    | some n =>
      by_cases hc : n.type = NPCType.MONSTER ∧ n.isDefeated = false
      · cases hf : s.player.canFight
        · have e : (fight s).1 = s := by simp [fight, hn, hc, hf]
          rw [e]; exact ih
        · rw [fight_win s n hn hc.1 hc.2 hf]
          simpa [afterWin, Player.addItem, Player.hasItem] using ih
      · have e : (fight s).1 = s := by simp [fight, hn, hc]
        rw [e]; exact ih
  · intro s _ ih _
    unfold take
    split_ifs
    · exact ih
    · cases h : s.room.item <;> simp_all [Player.addItem, Player.hasItem]
    · exact ih
  · intro s d _ ih _
    unfold move
    cases s.room.connections d with
    | none => exact ih
    | some t => exact ih

/-- In every reachable state the occupants outside the cave are as the world
builder placed them, and the cave holds the monster, defeated exactly when the
key is in the inventory. -/
theorem reachable_occupants :
    ∀ s, Reachable s →
      (∀ r, r ≠ RoomId.cave → (s.rooms r).npc = (initialState.rooms r).npc) ∧
      (s.rooms RoomId.cave).npc =
        some (caveMonster (s.player.hasItem ItemType.KEY)) := by
  apply reachable_induction
  · refine ⟨fun r _ => rfl, by decide⟩
  · intro s _ ih _
    obtain ⟨h1, h2⟩ := ih
    cases hn : s.room.npc with
    | none =>
      have e : (fight s).1 = s := by simp [fight, hn]
      rw [e]; exact ⟨h1, h2⟩
    | some n =>
      by_cases hc : n.type = NPCType.MONSTER ∧ n.isDefeated = false
      · cases hf : s.player.canFight
        · have e : (fight s).1 = s := by simp [fight, hn, hc, hf]
          rw [e]; exact ⟨h1, h2⟩
        · have hcur : s.player.currentRoom = RoomId.cave := by
            by_contra hne
            have h := h1 _ hne
            unfold GameState.room at hn
            rw [hn] at h
            apply initial_monster_only_in_cave _ hne
            rw [← h]
            simp [hc.1]
          rw [fight_win s n hn hc.1 hc.2 hf]
          have hn2 : n = caveMonster (s.player.hasItem ItemType.KEY) := by
            unfold GameState.room at hn
            rw [hcur, h2] at hn
            exact (Option.some.inj hn).symm
          refine ⟨fun r hr => ?_, ?_⟩
          · have hr2 : r ≠ s.player.currentRoom := by rw [hcur]; exact hr
            simpa [afterWin, GameState.setRoom, Function.update_noteq hr2] using h1 r hr
          · simp [afterWin, GameState.setRoom, hcur, Player.addItem, Player.hasItem, hn2,
              caveMonster]
      · have e : (fight s).1 = s := by simp [fight, hn, hc]
        rw [e]; exact ⟨h1, h2⟩
  · intro s hs ih _
    obtain ⟨h1, h2⟩ := ih
    have hk : ItemType.KEY ≠ s.room.item := fun h => (reachable_inventory_chain s hs).1 _ h.symm
    refine ⟨fun r hr => by rw [take_npc]; exact h1 r hr, ?_⟩
    rw [take_npc, take_hasItem s _ hk]
    exact h2
  · intro s d _ ih _
    obtain ⟨h1, h2⟩ := ih
    unfold move
    cases s.room.connections d with
    | none => exact ⟨h1, h2⟩
    | some t => exact ⟨h1, h2⟩

/-- Every line keeps the layout of every room. -/
theorem handleCommand_layout (s : GameState) (line : String) (r : RoomId) :
    ((handleCommand s line).state.rooms r).sameLayout (s.rooms r) := by
  rcases handleCommand_state_cases s line with h | ⟨_, h | h | ⟨d, _, h⟩⟩
  · rw [h]; exact Room.sameLayout_refl _
  · rw [h]; exact fight_layout s r
  · rw [h]; exact take_layout s r
  · rw [h, move_rooms]; exact Room.sameLayout_refl _

/-- The `look` handler never prints the unknown-command message. -/
theorem look_no_unknown (s : GameState) : Msg.unknownCommand ∉ look s := by
  unfold look
  split_ifs
  · decide
  · have e1 : ∀ o, Msg.unknownCommand ∉ npcLine o := by
      intro o
      cases o with
      | none => decide
      | some n =>
        simp only [npcLine]
        split_ifs
        · decide
        · cases n.type <;> decide
    have e2 : ∀ i, Msg.unknownCommand ∉ itemLine i := by
      intro i; cases i <;> decide
    simp only [Room.describeLook, Room.showAvailablePathsAndItems, List.mem_cons,
      List.mem_append, not_or]
    refine ⟨by simp, ⟨?_, e1 _⟩, e2 _⟩
    split_ifs <;> simp

/-- The `talk` handler never prints the unknown-command message. -/
theorem talk_no_unknown (s : GameState) : Msg.unknownCommand ∉ talk s := by
  unfold talk
  cases s.room.npc with
  | none => decide
  | some n =>
    simp only
    split_ifs <;> simp

/-- The `fight` handler never prints the unknown-command message. -/
theorem fight_no_unknown (s : GameState) : Msg.unknownCommand ∉ (fight s).2 := by
  unfold fight
  cases s.room.npc with
  | none => simp
  | some n =>
    simp only
    split_ifs <;> simp

/-- The `take` handler never prints the unknown-command message. -/
theorem take_no_unknown (s : GameState) : Msg.unknownCommand ∉ (take s).2 := by
  unfold take
  split_ifs
  · simp
  · cases s.room.item <;> simp [takeMessage]
  · simp

/-- The movement block never prints the unknown-command message. -/
theorem move_no_unknown (s : GameState) (d : Direction) : Msg.unknownCommand ∉ (move s d).2 := by
  unfold move
  cases s.room.connections d <;> simp

/-- A line outside the fourteen tokens parses to no direction. -/
theorem parseDirection_none (line : String) (h : line ∉ commandTokens) :
    parseDirection line = none := by
  cases hp : parseDirection line with
  | none => rfl
  | some d =>
    exfalso
    apply h
    rw [parseDirection_tokens] at hp
    rcases hp with ⟨_, h | h⟩ | ⟨_, h | h⟩ | ⟨_, h | h⟩ | ⟨_, h | h⟩ <;> subst h <;> decide

/-- With the has-treasure flag unset, a line outside the fourteen tokens falls
through to the unknown-command branch. -/
theorem handleCommand_unknown (s : GameState) (line : String)
    (hT : s.player.hasTreasure = false) (h : line ∉ commandTokens) :
    handleCommand s line = ⟨s, [Msg.unknownCommand], Outcome.next⟩ := by
  have hp := parseDirection_none line h
  have h1 : line ≠ "look" := by rintro rfl; exact h (by decide)
  have h2 : line ≠ "help" := by rintro rfl; exact h (by decide)
  have h3 : line ≠ "quit" := by rintro rfl; exact h (by decide)
  have h4 : line ≠ "talk" := by rintro rfl; exact h (by decide)
  have h5 : line ≠ "fight" := by rintro rfl; exact h (by decide)
  have h6 : line ≠ "take" := by rintro rfl; exact h (by decide)
  simp [handleCommand, h1, h2, h3, h4, h5, h6, hT, hp]

/-- No command token contains a whitespace character. -/
theorem token_no_whitespace :
    ∀ t ∈ commandTokens, ∀ ch ∈ t.data, ch.isWhitespace = false := by
  decide

/-- A token padded with whitespace on either side is not a token. -/
theorem padded_not_token (c pre post : String) (hpre : allWhitespace pre = true)
    (hpost : allWhitespace post = true) (hne : pre ≠ "" ∨ post ≠ "") :
    pre ++ c ++ post ∉ commandTokens := by
  intro hmem
  have hno := token_no_whitespace _ hmem
  simp only [String.data_append, List.mem_append] at hno
  unfold allWhitespace at hpre hpost
  rw [List.all_eq_true] at hpre hpost
  rcases hne with h | h
  · cases hd : pre.data with
    | nil => exact h (String.ext hd)
    | cons ch rest =>
      have hin : ch ∈ pre.data := by rw [hd]; exact List.mem_cons_self _ _
      have := hno ch (Or.inl (Or.inl hin))
      rw [hpre ch hin] at this
      cases this
  · cases hd : post.data with
    | nil => exact h (String.ext hd)
    | cons ch rest =>
      have hin : ch ∈ post.data := by rw [hd]; exact List.mem_cons_self _ _
      have := hno ch (Or.inr hin)
      rw [hpost ch hin] at this
      cases this

/-- In a reachable state the name of the current room contains `Mountain` exactly
at the mountain. -/
theorem reachable_name_mountain (s : GameState) (hs : Reachable s) :
    nameHasMountain s.room.name = true ↔ s.player.currentRoom = RoomId.mountain := by
  unfold GameState.room
  rw [(reachable_layout s hs _).2.2.2.1]
  cases s.player.currentRoom <;> decide

/-- An exit name accepted by `nameConnected` names a direction with a neighbour. -/
theorem Room.nameConnected_spec (r : Room) (p : String) (h : r.nameConnected p = true) :
    ∃ d, directionToString d = p ∧ r.connections d ≠ none := by
  unfold Room.nameConnected at h
  rw [List.any_eq_true] at h
  obtain ⟨d, _, hd⟩ := h
  simp only [Bool.and_eq_true, beq_iff_eq] at hd
  refine ⟨d, hd.1, ?_⟩
  intro hn
  rw [hn] at hd
  exact absurd hd.2 (by decide)

/-- The guard of `addPath` keeps the number of shown exits at four at most. -/
theorem addPath_numPaths_le (r : Room) (p : String) (h : r.numPaths ≤ 4) :
    (r.addPath p).numPaths ≤ 4 := by
  unfold Room.addPath
  split_ifs with h1
  · show r.numPaths + 1 ≤ 4
    omega
  · exact h

/-- The exit lists the world builder leaves: connected, duplicate-free and short. -/
theorem initial_exits :
    ∀ r : RoomId,
      ((initialState.rooms r).shownPaths.all (initialState.rooms r).nameConnected = true) ∧
      (initialState.rooms r).shownPaths.Nodup ∧
      (initialState.rooms r).shownPaths.length ≤ 4 ∧
      (initialState.rooms r).numPaths ≤ 4 := by
  intro r
  cases r <;> decide

/-- Adding an item clears no inventory flag. -/
theorem addItem_hasItem_mono (p : Player) (j i : ItemType) (h : p.hasItem i = true) :
    (p.addItem j).hasItem i = true := by
  cases j <;> cases i <;> simp_all [Player.addItem, Player.hasItem]

/-- Adding an item does not clear the has-treasure flag. -/
theorem addItem_hasTreasure_mono (p : Player) (j : ItemType) (h : p.hasTreasure = true) :
    (p.addItem j).hasTreasure = true := by
  cases j <;> simp_all [Player.addItem]

/-- The fight handler clears no inventory flag, not the has-treasure flag and no
defeated flag. -/
theorem fight_permanent (s : GameState) :
    (∀ i, s.player.hasItem i = true → (fight s).1.player.hasItem i = true) ∧
    (s.player.hasTreasure = true → (fight s).1.player.hasTreasure = true) ∧
    (∀ r n, (s.rooms r).npc = some n → n.isDefeated = true →
      ∃ n', ((fight s).1.rooms r).npc = some n' ∧ n'.isDefeated = true ∧ n'.type = n.type) := by
  have same : (fight s).1 = s →
      ((∀ i, s.player.hasItem i = true → (fight s).1.player.hasItem i = true) ∧
      (s.player.hasTreasure = true → (fight s).1.player.hasTreasure = true) ∧
      (∀ r n, (s.rooms r).npc = some n → n.isDefeated = true →
        ∃ n', ((fight s).1.rooms r).npc = some n' ∧ n'.isDefeated = true ∧
          n'.type = n.type)) := by
    intro e
    rw [e]
    exact ⟨fun _ h => h, fun h => h, fun r n h1 h2 => ⟨n, h1, h2, rfl⟩⟩
  cases hn : s.room.npc with
  | none => exact same (by simp [fight, hn])
  | some n0 =>
    by_cases hc : n0.type = NPCType.MONSTER ∧ n0.isDefeated = false
    · cases hf : s.player.canFight
      · exact same (by simp [fight, hn, hc, hf])
      · rw [fight_win s n0 hn hc.1 hc.2 hf]
        refine ⟨fun i h => addItem_hasItem_mono _ _ _ h,
          fun h => addItem_hasTreasure_mono _ _ h, ?_⟩
        intro r n h1 h2
        by_cases hr : r = s.player.currentRoom
        · subst hr
          unfold GameState.room at hn
          rw [hn] at h1
          cases h1
          rw [hc.2] at h2
          cases h2
        · exact ⟨n, by simpa [afterWin, GameState.setRoom, Function.update_noteq hr] using h1,
            h2, rfl⟩
    · exact same (by simp [fight, hn, hc])

/-- The take handler clears no inventory flag and not the has-treasure flag. -/
theorem take_permanent (s : GameState) :
    (∀ i, s.player.hasItem i = true → (take s).1.player.hasItem i = true) ∧
    (s.player.hasTreasure = true → (take s).1.player.hasTreasure = true) := by
  unfold take
  split_ifs
  · exact ⟨fun _ h => h, fun h => h⟩
  · exact ⟨fun i h => addItem_hasItem_mono _ _ _ h, fun h => addItem_hasTreasure_mono _ _ h⟩
  · exact ⟨fun _ h => h, fun h => h⟩

/-- The movement block leaves inventory and has-treasure flag alone. -/
theorem move_permanent (s : GameState) (d : Direction) :
    (move s d).1.player.itemInventory = s.player.itemInventory ∧
    (move s d).1.player.hasTreasure = s.player.hasTreasure := by
  unfold move
  cases s.room.connections d <;> exact ⟨rfl, rfl⟩

/-- The render of a room always starts with its entry line. -/
theorem describe_has_entry (r : Room) : r.describe.any Msg.isRoomEntry = true := by
  simp [Room.describe, Msg.isRoomEntry]

/-- An item is left in a room only as the sword at the mountain or the treasure
in the hidden room. -/
theorem itemLeft_ne_none (p : Player) (r : RoomId) (h : itemLeft p r ≠ ItemType.NONE) :
    (r = RoomId.mountain ∧ p.hasItem ItemType.SWORD = false ∧
        itemLeft p r = ItemType.SWORD) ∨
      (r = RoomId.hiddenRoom ∧ p.hasItem ItemType.TREASURE = false ∧
        itemLeft p r = ItemType.TREASURE) := by
  cases r <;> simp [itemLeft] at h ⊢ <;> simp [h]

/-- In every reachable state each room holds exactly the item not yet taken. -/
theorem reachable_items :
    ∀ s, Reachable s → ∀ r, (s.rooms r).item = itemLeft s.player r := by
  apply reachable_induction
  · intro r; cases r <;> decide
  · intro s _ ih _ r
    cases hn : s.room.npc with
    | none =>
      have e : (fight s).1 = s := by simp [fight, hn]
      rw [e]; exact ih r
    | some n =>
      by_cases hc : n.type = NPCType.MONSTER ∧ n.isDefeated = false
      · cases hf : s.player.canFight
        · have e : (fight s).1 = s := by simp [fight, hn, hc, hf]
          rw [e]; exact ih r
        · rw [fight_win s n hn hc.1 hc.2 hf]
          have hi : ((afterWin s n).rooms r).item = (s.rooms r).item := by
            by_cases hr : r = s.player.currentRoom
            · subst hr; simp [afterWin, GameState.setRoom, GameState.room]
            · simp [afterWin, GameState.setRoom, Function.update_noteq hr]
          rw [hi, ih r]
          cases r <;> simp [itemLeft, afterWin, Player.addItem, Player.hasItem]
      · have e : (fight s).1 = s := by simp [fight, hn, hc]
        rw [e]; exact ih r
  · intro s _ ih _ r
    by_cases hI : s.room.item = ItemType.NONE
    · have e : (take s).1 = s := by simp [take, hI]
      rw [e]; exact ih r
    · by_cases hL : s.room.item = ItemType.TREASURE ∧ s.player.hasItem ItemType.KEY = false
      · have e : (take s).1 = s := by simp [take, hI, hL]
        rw [e]; exact ih r
      · have hst : (take s).1 = { (s.setRoom { s.room with item := ItemType.NONE }) with
            player := s.player.addItem s.room.item } := by
          simp [take, hI, hL]
        rw [hst]
        have hcur : s.room.item = itemLeft s.player s.player.currentRoom :=
          ih s.player.currentRoom
        have hne : itemLeft s.player s.player.currentRoom ≠ ItemType.NONE := by
          rw [← hcur]; exact hI
        have hnew : ∀ q : Player, (({ (s.setRoom { s.room with item := ItemType.NONE }) with
            player := q } : GameState).rooms r).item =
              if r = s.player.currentRoom then ItemType.NONE else (s.rooms r).item := by
          intro q
          by_cases hr : r = s.player.currentRoom
          · subst hr; simp [GameState.setRoom]
          · simp [GameState.setRoom, Function.update_noteq hr, hr]
        rw [hnew, ih r, hcur]
        rcases itemLeft_ne_none _ _ hne with ⟨hc, hf, hv⟩ | ⟨hc, hf, hv⟩
        · rw [hv, hc]
          cases r <;> simp [itemLeft, Player.addItem, Player.hasItem]
        · rw [hv, hc]
          cases r <;> simp [itemLeft, Player.addItem, Player.hasItem]
  · intro s d _ ih _ r
    unfold move
    cases s.room.connections d with
    | none => exact ih r
    | some t => exact ih r

/-- The extraction loop returns a line that holds no newline and is followed by
one. -/
theorem readLine_line (xs rest : List Char) (h : '\n' ∉ xs) :
    readLine (xs ++ '\n' :: rest) = (xs, some rest) := by
  induction xs with
  | nil => simp [readLine]
  | cons ch tl ih =>
    have h1 : ch ≠ '\n' := fun e => h (by rw [e]; exact List.mem_cons_self _ _)
    have h2 : '\n' ∉ tl := fun e => h (List.mem_cons_of_mem _ e)
    simp [readLine, h1, ih h2]

/-- Reading from input fed line by line returns the first line and leaves the
rest. -/
theorem getline_feed (line : String) (rest : List String) (command : String)
    (h : '\n' ∉ line.data) :
    getline ⟨feed (line :: rest), true⟩ command = (⟨feed rest, true⟩, line) := by
  simp [getline, feed, readLine_line _ _ h]

/-- Reading from the exhausted input yields the empty string and fails the
stream. -/
theorem getline_exhausted (command : String) :
    getline ⟨[], true⟩ command = (⟨[], false⟩, "") := by
  rfl

/-- Reading from a failed stream leaves `command` as it was. -/
theorem getline_failed (chars : List Char) (command : String) :
    getline ⟨chars, false⟩ command = (⟨chars, false⟩, command) := by
  simp [getline]

/-- Once the stream has failed and `command` is the empty string, the loop
spins: every pass prints the unknown-command message and changes nothing. -/
theorem mainLoop_spin (n : Nat) (chars : List Char) (s : GameState)
    (hT : s.player.hasTreasure = false) :
    (mainLoop n ⟨chars, false⟩ "" s).outcome = Outcome.next ∧
    (mainLoop n ⟨chars, false⟩ "" s).state = s := by
  induction n with
  | zero => exact ⟨rfl, rfl⟩
  | succ n ih =>
    have hu := handleCommand_unknown s "" hT (by decide)
    simp only [mainLoop, getline_failed, hu]
    exact ih

/-- With the input used up and the has-treasure flag unset, the loop never
ends, whatever the fuel. -/
theorem mainLoop_exhausted (n : Nat) (command : String) (s : GameState)
    (hT : s.player.hasTreasure = false) :
    (mainLoop n ⟨[], true⟩ command s).outcome = Outcome.next ∧
    (mainLoop n ⟨[], true⟩ command s).state = s := by
  cases n with
  | zero => exact ⟨rfl, rfl⟩
  | succ n =>
    have hu := handleCommand_unknown s "" hT (by decide)
    simp only [mainLoop, getline_exhausted, hu]
    exact mainLoop_spin n [] s hT

/-- Over lines entered with their newlines, the loop does what `runFrom` does,
and then goes on with the input used up. -/
theorem mainLoop_feed (lines : List String) (hclean : ∀ l ∈ lines, '\n' ∉ l.data) :
    ∀ (k : Nat) (s : GameState) (c : String),
      ((runFrom s c lines).outcome ≠ Outcome.next →
        (mainLoop (lines.length + k) ⟨feed lines, true⟩ c s).outcome =
            (runFrom s c lines).outcome ∧
          (mainLoop (lines.length + k) ⟨feed lines, true⟩ c s).state =
            (runFrom s c lines).state ∧
          (mainLoop (lines.length + k) ⟨feed lines, true⟩ c s).output =
            (runFrom s c lines).output) ∧
      ((runFrom s c lines).outcome = Outcome.next →
        (mainLoop (lines.length + k) ⟨feed lines, true⟩ c s).outcome =
            (mainLoop k ⟨[], true⟩ (runFrom s c lines).command
              (runFrom s c lines).state).outcome ∧
          (mainLoop (lines.length + k) ⟨feed lines, true⟩ c s).state =
            (mainLoop k ⟨[], true⟩ (runFrom s c lines).command
              (runFrom s c lines).state).state ∧
          (mainLoop (lines.length + k) ⟨feed lines, true⟩ c s).output =
            (runFrom s c lines).output ++
              (mainLoop k ⟨[], true⟩ (runFrom s c lines).command
                (runFrom s c lines).state).output) := by
  induction lines with
  | nil =>
    intro k s c
    simp [runFrom, feed]
  | cons line rest ih =>
    intro k s c
    have hl : '\n' ∉ line.data := hclean line (List.mem_cons_self _ _)
    have hrest : ∀ l ∈ rest, '\n' ∉ l.data := fun l h => hclean l (List.mem_cons_of_mem _ h)
    have hlen : (line :: rest).length + k = (rest.length + k) + 1 := by
      simp only [List.length_cons]; omega
    rw [hlen]
    cases ho : (handleCommand s line).outcome with
    | next =>
      obtain ⟨e1, e2, e3, e4⟩ := runFrom_cons_next s c line rest ho
      obtain ⟨ihb, ihn⟩ := ih hrest k (handleCommand s line).state line
      simp only [mainLoop, getline_feed line rest c hl, ho, e1, e2, e3, e4]
      constructor
      · intro h
        obtain ⟨a, b, d⟩ := ihb h
        exact ⟨a, b, by rw [d]⟩
      · intro h
        obtain ⟨a, b, d⟩ := ihn h
        exact ⟨a, b, by rw [d]; simp only [List.append_assoc]⟩
    | quit =>
      obtain ⟨e1, e2, e3, e4⟩ := runFrom_cons_break s c line rest (by rw [ho]; decide)
      simp only [mainLoop, getline_feed line rest c hl, ho, e1, e2, e3, e4]
      simp
    | victory =>
      obtain ⟨e1, e2, e3, e4⟩ := runFrom_cons_break s c line rest (by rw [ho]; decide)
      simp only [mainLoop, getline_feed line rest c hl, ho, e1, e2, e3, e4]
      simp


/-- A loop that has ended stays ended when more fuel is given. -/
theorem mainLoop_stable (n : Nat) :
    ∀ (i : Stream) (c : String) (s : GameState),
      (mainLoop n i c s).outcome ≠ Outcome.next →
      (mainLoop (n + 1) i c s).outcome = (mainLoop n i c s).outcome := by
  induction n with
  | zero => intro i c s h; exact absurd rfl h
  | succ n ih =>
    intro i c s h
    cases ho : (handleCommand s (getline i c).2).outcome with
    | next =>
      have e1 : ∀ m, (mainLoop (m + 1) i c s).outcome =
          (mainLoop m (getline i c).1 (getline i c).2
            (handleCommand s (getline i c).2).state).outcome := by
        intro m; simp only [mainLoop, ho]
      rw [e1 (n + 1), e1 n]
      rw [e1 n] at h
      exact ih _ _ _ h
    | quit => simp only [mainLoop, ho]
    | victory => simp only [mainLoop, ho]

/-- A loop that is still running after `n + m` passes was running after `n`. -/
theorem mainLoop_running (m n : Nat) (i : Stream) (c : String) (s : GameState)
    (h : (mainLoop (n + m) i c s).outcome = Outcome.next) :
    (mainLoop n i c s).outcome = Outcome.next := by
  induction m with
  | zero => exact h
  | succ m ih =>
    apply ih
    by_contra hne
    have hst := mainLoop_stable (n + m) i c s hne
    rw [show n + m + 1 = n + (m + 1) by omega, h] at hst
    exact hne hst.symm

/-- Once the stream has failed with `look` left in `command`, every pass runs
the look handler again. -/
theorem mainLoop_spin_look (n : Nat) (chars : List Char) (s : GameState) :
    (mainLoop n ⟨chars, false⟩ "look" s).outcome = Outcome.next := by
  induction n with
  | zero => rfl
  | succ n ih =>
    simp only [mainLoop, getline_failed, handleCommand_look]
    exact ih

/-- Neighbouring rooms lie one place apart along the corridor. -/
theorem initial_step_position :
    ∀ (r : RoomId) (d : Direction) (t : RoomId),
      (initialState.rooms r).connections d = some t →
      position r ≤ position t + 1 ∧ position t ≤ position r + 1 := by
  intro r d t
  cases r <;> cases d <;> cases t <;> decide

/-- A fight does not lower the number of moves still needed. -/
theorem movesToGo_fight (s : GameState) (hs : Reachable s) :
    movesToGo s ≤ movesToGo (fight s).1 := by
  cases hn : s.room.npc with
  | none =>
    have e : (fight s).1 = s := by simp [fight, hn]
    rw [e]
  | some n =>
    by_cases hc : n.type = NPCType.MONSTER ∧ n.isDefeated = false
    · cases hf : s.player.canFight
      · have e : (fight s).1 = s := by simp [fight, hn, hc, hf]
        rw [e]
      · obtain ⟨h1, h2⟩ := reachable_occupants s hs
        have hcur : s.player.currentRoom = RoomId.cave := by
          by_contra hne
          have h := h1 _ hne
          unfold GameState.room at hn
          rw [hn] at h
          apply initial_monster_only_in_cave _ hne
          rw [← h]
          simp [hc.1]
        have hk : s.player.hasItem ItemType.KEY = false := by
          unfold GameState.room at hn
          rw [hcur, h2] at hn
          have := (Option.some.inj hn)
          rw [← this] at hc
          simpa [caveMonster] using hc.2
        have ht : s.player.hasItem ItemType.TREASURE = false := by
          cases h : s.player.hasItem ItemType.TREASURE
          · rfl
          · have hT : s.player.hasTreasure = true := by rw [reachable_hasTreasure s hs]; exact h
            rw [(reachable_inventory_chain s hs).2.1 hT] at hk
            cases hk
        have hsw : s.player.hasItem ItemType.SWORD = true := hf
        rw [fight_win s n hn hc.1 hc.2 hf]
        simp only [Player.hasItem] at hk ht hsw
        simp [movesToGo, afterWin, Player.addItem, Player.hasItem, hk, ht, hsw, hcur, position]
    · have e : (fight s).1 = s := by simp [fight, hn, hc]
      rw [e]

/-- A take does not lower the number of moves still needed. -/
theorem movesToGo_take (s : GameState) (hs : Reachable s) :
    movesToGo s ≤ movesToGo (take s).1 := by
  by_cases hI : s.room.item = ItemType.NONE
  · have e : (take s).1 = s := by simp [take, hI]
    rw [e]
  · by_cases hL : s.room.item = ItemType.TREASURE ∧ s.player.hasItem ItemType.KEY = false
    · have e : (take s).1 = s := by simp [take, hI, hL]
      rw [e]
    · have hst : (take s).1 = { (s.setRoom { s.room with item := ItemType.NONE }) with
          player := s.player.addItem s.room.item } := by
        simp [take, hI, hL]
      have hcur : s.room.item = itemLeft s.player s.player.currentRoom :=
        reachable_items s hs s.player.currentRoom
      have hne : itemLeft s.player s.player.currentRoom ≠ ItemType.NONE := by
        rw [← hcur]; exact hI
      obtain ⟨_, hchain2, hchain3⟩ := reachable_inventory_chain s hs
      have hTr := reachable_hasTreasure s hs
      rw [hst, hcur]
      rcases itemLeft_ne_none _ _ hne with ⟨hc, hf, hv⟩ | ⟨hc, hf, hv⟩
      · have hk : s.player.hasItem ItemType.KEY = false := by
          cases h : s.player.hasItem ItemType.KEY
          · rfl
          · rw [hchain3 h] at hf; cases hf
        have ht : s.player.hasItem ItemType.TREASURE = false := by
          cases h : s.player.hasItem ItemType.TREASURE
          · rfl
          · rw [← hTr] at h
            rw [hchain2 h] at hk; cases hk
        rw [hv]
        simp only [Player.hasItem] at hk ht hf
        simp [movesToGo, Player.addItem, Player.hasItem, hk, ht, hf, hc, position]
      · rw [hv]
        have hk : s.player.hasItem ItemType.KEY = true := by
          cases h : s.player.hasItem ItemType.KEY
          · exfalso
            apply hL
            rw [hcur, hv]
            exact ⟨rfl, h⟩
          · rfl
        simp only [Player.hasItem] at hk hf
        simp [movesToGo, Player.addItem, Player.hasItem, hk, hf, hc, position]

/-- A successful move lowers the number of moves still needed by at most one. -/
theorem movesToGo_move (s : GameState) (hs : Reachable s) (d : Direction) (t : RoomId)
    (hc : s.room.connections d = some t) :
    movesToGo s ≤ 1 + movesToGo (move s d).1 := by
  have hl := (reachable_layout s hs s.player.currentRoom).1
  unfold GameState.room at hc
  have hc2 := hc
  rw [hl] at hc2
  obtain ⟨p1, p2⟩ := initial_step_position _ _ _ hc2
  have hm : (move s d).1 = { s with player := { s.player with
      currentRoom := t, moveCount := s.player.moveCount.succ } } := by
    simp [move, GameState.room, hc]
  rw [hm]
  simp only [movesToGo, Player.hasItem]
  split_ifs <;> omega

/-- One line lowers the number of moves still needed by at most one, and only
when it is a successful move. -/
theorem movesToGo_step (s : GameState) (hs : Reachable s) (line : String) :
    movesToGo s ≤ (if moveSucceeds s line then 1 else 0) +
      movesToGo (handleCommand s line).state := by
  rcases handleCommand_state_cases s line with h | ⟨hT, h | h | ⟨d, hd, h⟩⟩
  · rw [h]; omega
  · rw [h]; have := movesToGo_fight s hs; omega
  · rw [h]; have := movesToGo_take s hs; omega
  · rw [h]
    cases hc : s.room.connections d with
    | none =>
      have e : (move s d).1 = s := by simp [move, hc]
      rw [e]; omega
    | some t =>
      have hm : moveSucceeds s line = true := by
        simp [moveSucceeds, hd, hT, Room.canMove, hc]
      rw [hm]
      exact movesToGo_move s hs d t hc

/-- Over a run, the moves still needed drop by no more than the successful
moves made. -/
theorem movesToGo_run (lines : List String) :
    ∀ (s : GameState) (c : String), Reachable s →
      movesToGo s ≤ successfulMoves s lines + movesToGo (runFrom s c lines).state := by
  induction lines with
  | nil => intro s c _; simp [runFrom, successfulMoves]
  | cons line rest ih =>
    intro s c hs
    have hstep := movesToGo_step s hs line
    cases ho : (handleCommand s line).outcome with
    | next =>
      have e := (runFrom_cons_next s c line rest ho).1
      have hr := ih (handleCommand s line).state line (Reachable.step s line hs ho)
      rw [e]
      simp only [successfulMoves, ho]
      omega
    | quit =>
      have e := (runFrom_cons_break s c line rest (by rw [ho]; decide)).1
      rw [e]
      simp only [successfulMoves, ho]
      omega
    | victory =>
      have e := (runFrom_cons_break s c line rest (by rw [ho]; decide)).1
      rw [e]
      simp only [successfulMoves, ho]
      omega

/-- A line ends the loop with victory only when the has-treasure flag is set,
and then it prints exactly the banner with the current move counter. -/
theorem handleCommand_victory_inv (s : GameState) (line : String)
    (h : (handleCommand s line).outcome = Outcome.victory) :
    s.player.hasTreasure = true ∧
      (handleCommand s line).output = [Msg.victoryBanner s.player.moveCount] := by
  revert h
  unfold handleCommand
  split_ifs with h1 h2 h3 h4
  · intro h; cases h
  · intro h; cases h
  · intro h; cases h
  · intro _; exact ⟨h4, rfl⟩
  · intro h; cases h
  · intro h; cases h
  · intro h; cases h
  · cases parseDirection line <;> (intro h; cases h)

/-- A run that ends in victory ends with the has-treasure flag set and the
banner that reports the final move counter as its last output. -/
theorem runFrom_victory (lines : List String) :
    ∀ (s : GameState) (c : String), (runFrom s c lines).outcome = Outcome.victory →
      (runFrom s c lines).state.player.hasTreasure = true ∧
      (runFrom s c lines).output.getLast? =
        some (Msg.victoryBanner (runFrom s c lines).state.player.moveCount) := by
  induction lines with
  | nil => intro s c h; simp [runFrom] at h
  | cons line rest ih =>
    intro s c h
    cases ho : (handleCommand s line).outcome with
    | next =>
      obtain ⟨e1, e2, e3, _⟩ := runFrom_cons_next s c line rest ho
      rw [e2] at h
      obtain ⟨a, b⟩ := ih _ _ h
      rw [e1, e3]
      refine ⟨a, ?_⟩
      rw [List.getLast?_append, b]
      rfl
    | quit =>
      have e := (runFrom_cons_break s c line rest (by rw [ho]; decide)).2.1
      rw [e, ho] at h; cases h
    | victory =>
      obtain ⟨e1, _, e3, _⟩ := runFrom_cons_break s c line rest (by rw [ho]; decide)
      obtain ⟨a, b⟩ := handleCommand_victory_inv s line ho
      have hst := handleCommand_break_state s line (by rw [ho]; decide)
      rw [e1, e3, hst, b]
      refine ⟨a, ?_⟩
      rw [List.getLast?_append]
      rfl

/-- Pacing between forest and ruins brings the player back to the forest with
rooms, inventory and has-treasure flag untouched, and never ends the loop. -/
theorem runFrom_pacing (k : Nat) :
    ∀ (s : GameState) (c : String), s.rooms = initialState.rooms →
      s.player.currentRoom = RoomId.forest → s.player.hasTreasure = false →
      (runFrom s c (pacing k)).outcome = Outcome.next ∧
      (runFrom s c (pacing k)).state.rooms = s.rooms ∧
      (runFrom s c (pacing k)).state.player.currentRoom = RoomId.forest ∧
      (runFrom s c (pacing k)).state.player.hasTreasure = false ∧
      (runFrom s c (pacing k)).state.player.itemInventory = s.player.itemInventory := by
  induction k with
  | zero => intro s c _ hc hT; exact ⟨rfl, rfl, hc, hT, rfl⟩
  | succ k ih =>
    intro s c hr hc hT
    have he : s.room.connections Direction.EAST = some RoomId.ruins := by
      unfold GameState.room; rw [hr, hc]; decide
    have h1 : handleCommand s "e" = ⟨(move s Direction.EAST).1, (move s Direction.EAST).2,
        Outcome.next⟩ := handleCommand_move s "e" Direction.EAST hT (by decide)
    have hr1 : (move s Direction.EAST).1.rooms = s.rooms := move_rooms s _
    have hc1 : (move s Direction.EAST).1.player.currentRoom = RoomId.ruins := by
      simp [move, he]
    have hT1 : (move s Direction.EAST).1.player.hasTreasure = false := by
      simp [move, he, hT]
    have hi1 : (move s Direction.EAST).1.player.itemInventory = s.player.itemInventory := by
      simp [move, he]
    have n1 := runFrom_cons_next s c "e" ("w" :: pacing k) (by rw [h1])
    rw [h1] at n1
    simp only at n1
    generalize (move s Direction.EAST).1 = s1 at h1 hr1 hc1 hT1 hi1 n1
    have hw : s1.room.connections Direction.WEST = some RoomId.forest := by
      unfold GameState.room; rw [hr1, hr, hc1]; decide
    have h2 : handleCommand s1 "w" = ⟨(move s1 Direction.WEST).1, (move s1 Direction.WEST).2,
        Outcome.next⟩ := handleCommand_move s1 "w" Direction.WEST hT1 (by decide)
    have n2 := runFrom_cons_next s1 "e" "w" (pacing k) (by rw [h2])
    rw [h2] at n2
    simp only at n2
    obtain ⟨a, b, d, e, f⟩ := ih (move s1 Direction.WEST).1 "w"
      (by rw [move_rooms, hr1]; exact hr) (by simp [move, hw]) (by simp [move, hw, hT1])
    have hi2 : (move s1 Direction.WEST).1.player.itemInventory = s1.player.itemInventory := by
      simp [move, hw]
    simp only [pacing]
    rw [n1.1, n1.2.1, n2.1, n2.2.1]
    exact ⟨a, by rw [b, move_rooms, hr1], d, e, by rw [f, hi2, hi1]⟩

/-- The state and the outcome of a run do not depend on the line read before it. -/
theorem runFrom_command_irrelevant (s : GameState) (c c' : String) (lines : List String) :
    (runFrom s c lines).state = (runFrom s c' lines).state ∧
    (runFrom s c lines).outcome = (runFrom s c' lines).outcome := by
  cases lines with
  | nil => exact ⟨rfl, rfl⟩
  | cons line rest =>
    cases ho : (handleCommand s line).outcome with
    | next =>
      have e1 := runFrom_cons_next s c line rest ho
      have e2 := runFrom_cons_next s c' line rest ho
      exact ⟨by rw [e1.1, e2.1], by rw [e1.2.1, e2.2.1]⟩
    | quit =>
      have e1 := runFrom_cons_break s c line rest (by rw [ho]; decide)
      have e2 := runFrom_cons_break s c' line rest (by rw [ho]; decide)
      exact ⟨by rw [e1.1, e2.1], by rw [e1.2.1, e2.2.1]⟩
    | victory =>
      have e1 := runFrom_cons_break s c line rest (by rw [ho]; decide)
      have e2 := runFrom_cons_break s c' line rest (by rw [ho]; decide)
      exact ⟨by rw [e1.1, e2.1], by rw [e1.2.1, e2.2.1]⟩

/-- After pacing `1073741816` times the game is in `nearMaxState`. -/
theorem run_pacing_nearMax :
    (runFrom initialState "" (pacing 1073741816)).state = nearMaxState := by
  obtain ⟨_, b, d, e, f⟩ := runFrom_pacing 1073741816 initialState "" rfl rfl rfl
  have hm := runFrom_moveCount (pacing 1073741816) initialState "" (by
    rw [successfulMoves_pacing 1073741816 initialState rfl rfl rfl]
    decide)
  rw [successfulMoves_pacing 1073741816 initialState rfl rfl rfl] at hm
  generalize runFrom initialState "" (pacing 1073741816) = r at b d e f hm
  obtain ⟨⟨rooms, ⟨inv, cur, ht, mc⟩⟩, cmd, out, oc⟩ := r
  simp only at b d e f hm
  subst b d e f
  have hmc : mc = ⟨2147483632, by decide⟩ := Subtype.ext (by rw [hm]; decide)
  subst hmc
  rfl

set_option maxRecDepth 8192 in
/-- The winning lines played from `nearMaxState` end in victory with a wrapped
counter. -/
theorem nearMax_win :
    (runFrom nearMaxState "" (winningLines ++ ["x"])).outcome = Outcome.victory ∧
    (runFrom nearMaxState "" (winningLines ++ ["x"])).state.player.moveCount.val =
      -2147483647 := by
  decide

/-! ## The `take` handler -/

/-- C1: when the has-treasure flag is unset, the current room holds the treasure
and the inventory lacks the key, `take` prints the "chest is locked" message and
leaves the whole state (item slot, inventory, flag, position, move counter,
occupants) as it was; the loop continues. -/
theorem take_locked_chest (s : GameState)
    (hT : s.player.hasTreasure = false)
    (hI : s.room.item = ItemType.TREASURE)
    (hK : s.player.hasItem ItemType.KEY = false) :
    (handleCommand s "take").state = s ∧
      (handleCommand s "take").state.room.item = ItemType.TREASURE ∧
      (handleCommand s "take").output = [Msg.chestLocked] ∧
      (handleCommand s "take").outcome = Outcome.next := by
  simp [handleCommand, take, hT, hI, hK]

/-- C1 at the hidden room reached by `n, e, e, s, e` with an empty inventory. -/
theorem take_locked_chest_witness :
    (handleCommand (run ["n", "e", "e", "s", "e"]).state "take").state =
        (run ["n", "e", "e", "s", "e"]).state ∧
      (handleCommand (run ["n", "e", "e", "s", "e"]).state "take").state.room.item =
        ItemType.TREASURE ∧
      (handleCommand (run ["n", "e", "e", "s", "e"]).state "take").output = [Msg.chestLocked] ∧
      (handleCommand (run ["n", "e", "e", "s", "e"]).state "take").outcome = Outcome.next :=
  take_locked_chest _ (by decide) (by decide) (by decide)

/-- C2: when the has-treasure flag is unset and the current room holds an item
that is not the treasure, or is the treasure while the key is held, `take` adds
exactly that item to the inventory, empties the room's item slot (changing
nothing else of that room), sets the has-treasure flag iff the item was the
treasure, and leaves position, move counter, the other inventory flags, every
other room and all occupants unchanged. -/
theorem take_success (s : GameState)
    (hT : s.player.hasTreasure = false)
    (hI : s.room.item ≠ ItemType.NONE)
    (hOk : s.room.item ≠ ItemType.TREASURE ∨ s.player.hasItem ItemType.KEY = true) :
    (handleCommand s "take").state.player.hasItem s.room.item = true ∧
    (∀ i, i ≠ s.room.item →
      (handleCommand s "take").state.player.hasItem i = s.player.hasItem i) ∧
    (handleCommand s "take").state.rooms s.player.currentRoom =
      { s.room with item := ItemType.NONE } ∧
    ((handleCommand s "take").state.player.hasTreasure = true ↔
      s.room.item = ItemType.TREASURE) ∧
    (handleCommand s "take").state.player.currentRoom = s.player.currentRoom ∧
    (handleCommand s "take").state.player.moveCount = s.player.moveCount ∧
    (∀ r, r ≠ s.player.currentRoom →
      (handleCommand s "take").state.rooms r = s.rooms r) ∧
    (∀ r, ((handleCommand s "take").state.rooms r).npc = (s.rooms r).npc) ∧
    (handleCommand s "take").output = takeMessage s.room.item ∧
    (handleCommand s "take").outcome = Outcome.next := by
  have hcond : ¬ (s.room.item = ItemType.TREASURE ∧ s.player.hasItem ItemType.KEY = false) := by
    rintro ⟨h1, h2⟩
    rcases hOk with h | h
    · exact h h1
    · rw [h2] at h; cases h
  have hstate : (handleCommand s "take").state =
      { (s.setRoom { s.room with item := ItemType.NONE }) with
          player := s.player.addItem s.room.item } := by
    simp [handleCommand, take, hT, hI, hcond]
  have hout : (handleCommand s "take").output = takeMessage s.room.item := by
    simp [handleCommand, take, hT, hI, hcond]
  have hnext : (handleCommand s "take").outcome = Outcome.next := by
    simp [handleCommand, hT]
  rw [hstate]
  refine ⟨?_, ?_, ?_, ?_, ?_, ?_, ?_, ?_, hout, hnext⟩
  · cases h : s.room.item <;> simp_all [Player.addItem, Player.hasItem]
  · intro i hi
    cases h : s.room.item <;> cases i <;> simp_all [Player.addItem, Player.hasItem]
  · simp [GameState.setRoom]
  · cases h : s.room.item <;> simp_all [Player.addItem]
  · cases h : s.room.item <;> simp_all [Player.addItem]
  · cases h : s.room.item <;> simp_all [Player.addItem]
  · intro r hr
    simp [GameState.setRoom, Function.update_noteq hr]
  · intro r
    by_cases hr : r = s.player.currentRoom
    · subst hr; simp [GameState.setRoom, GameState.room]
    · simp [GameState.setRoom, Function.update_noteq hr]

/-- C2 at the hidden room, entered with the key: the treasure is taken. -/
theorem take_success_witness :
    ((run approachLines).state.player.hasTreasure = false ∧
      (run approachLines).state.room.item = ItemType.TREASURE ∧
      (run approachLines).state.player.hasItem ItemType.KEY = true) ∧
    (handleCommand (run approachLines).state "take").state.player.hasItem
        (run approachLines).state.room.item = true ∧
    ((handleCommand (run approachLines).state "take").state.player.hasTreasure = true ↔
      (run approachLines).state.room.item = ItemType.TREASURE) ∧
    (handleCommand (run approachLines).state "take").output =
      takeMessage (run approachLines).state.room.item :=
  have h := take_success (run approachLines).state (by decide) (by decide) (Or.inr (by decide))
  ⟨⟨by decide, by decide, by decide⟩, h.1, h.2.2.2.1, h.2.2.2.2.2.2.2.2.1⟩

/-! ## The `fight` handler -/

/-- C3: when the has-treasure flag is unset, the current room has an undefeated
monster and the sword is held, `fight` marks that occupant defeated (changing
nothing else of the room), adds the key to the inventory, and changes nothing
else: sword and treasure flags, has-treasure flag, position, move counter, every
room's item slot and every other room are as before. -/
theorem fight_success (s : GameState) (n : NPC)
    (hT : s.player.hasTreasure = false)
    (hN : s.room.npc = some n)
    (hM : n.type = NPCType.MONSTER)
    (hD : n.isDefeated = false)
    (hS : s.player.hasItem ItemType.SWORD = true) :
    (handleCommand s "fight").state.rooms s.player.currentRoom =
      { s.room with npc := some { n with isDefeated := true } } ∧
    (handleCommand s "fight").state.player.hasItem ItemType.KEY = true ∧
    (handleCommand s "fight").state.player.hasItem ItemType.SWORD =
      s.player.hasItem ItemType.SWORD ∧
    (handleCommand s "fight").state.player.hasItem ItemType.TREASURE =
      s.player.hasItem ItemType.TREASURE ∧
    (handleCommand s "fight").state.player.hasTreasure = s.player.hasTreasure ∧
    (handleCommand s "fight").state.player.currentRoom = s.player.currentRoom ∧
    (handleCommand s "fight").state.player.moveCount = s.player.moveCount ∧
    (∀ r, ((handleCommand s "fight").state.rooms r).item = (s.rooms r).item) ∧
    (∀ r, r ≠ s.player.currentRoom →
      (handleCommand s "fight").state.rooms r = s.rooms r) ∧
    (handleCommand s "fight").output = [Msg.defeatMonster, Msg.foundKey] ∧
    (handleCommand s "fight").outcome = Outcome.next := by
  have hstate : (handleCommand s "fight").state =
      { (s.setRoom { s.room with npc := some { n with isDefeated := true } }) with
          player := s.player.addItem ItemType.KEY } := by
    simp [handleCommand, fight, hT, hN, hM, hD, hS, Player.canFight]
  have hout : (handleCommand s "fight").output = [Msg.defeatMonster, Msg.foundKey] := by
    simp [handleCommand, fight, hT, hN, hM, hD, hS, Player.canFight]
  have hnext : (handleCommand s "fight").outcome = Outcome.next := by
    simp [handleCommand, hT]
  rw [hstate]
  refine ⟨?_, ?_, ?_, ?_, ?_, ?_, ?_, ?_, ?_, hout, hnext⟩
  · simp [GameState.setRoom]
  · simp [Player.addItem, Player.hasItem]
  · simp [Player.addItem, Player.hasItem]
  · simp [Player.addItem, Player.hasItem]
  · simp [Player.addItem]
  · simp [Player.addItem]
  · simp [Player.addItem]
  · intro r
    by_cases hr : r = s.player.currentRoom
    · subst hr; simp [GameState.setRoom, GameState.room]
    · simp [GameState.setRoom, Function.update_noteq hr]
  · intro r hr
    simp [GameState.setRoom, Function.update_noteq hr]

/-- C3 in the cave, entered with the sword fetched at the mountain. -/
theorem fight_success_witness :
    ((run armedCaveLines).state.player.hasTreasure = false ∧
      (run armedCaveLines).state.room.npc = some (NPC.new NPCType.MONSTER monsterDialogue) ∧
      (run armedCaveLines).state.player.hasItem ItemType.SWORD = true) ∧
    (handleCommand (run armedCaveLines).state "fight").state.player.hasItem ItemType.KEY =
      true ∧
    (handleCommand (run armedCaveLines).state "fight").output =
      [Msg.defeatMonster, Msg.foundKey] :=
  have h := fight_success (run armedCaveLines).state (NPC.new NPCType.MONSTER monsterDialogue)
    (by decide) (by decide) (by decide) (by decide) (by decide)
  ⟨⟨by decide, by decide, by decide⟩, h.2.1, h.2.2.2.2.2.2.2.2.2.1⟩

/-- C4: in every state whose inventory lacks the sword, `fight` leaves the
whole state unchanged (defeated flag, inventory, position, move counter); and
in every such state the game can reach, as in any state with the has-treasure
flag unset, an undefeated monster in the current room makes `fight` print
exactly the "need a sword" message, the loop continuing.  From the initial
state the lines `e, s, fight` leave the player in the cave after 2 moves with
an empty inventory, the monster undefeated and the "need a sword" message
printed last. -/
theorem fight_without_sword :
    (∀ s : GameState, s.player.hasItem ItemType.SWORD = false →
      (handleCommand s "fight").state = s ∧
      (∀ n, s.room.npc = some n → n.type = NPCType.MONSTER → n.isDefeated = false →
        (s.player.hasTreasure = false ∨ Reachable s) →
        (handleCommand s "fight").output = [Msg.needSword] ∧
        (handleCommand s "fight").outcome = Outcome.next)) ∧
    ((run ["e", "s", "fight"]).state.player.currentRoom = RoomId.cave ∧
      (run ["e", "s", "fight"]).state.player.moveCount.val = 2 ∧
      (run ["e", "s", "fight"]).state.player.itemInventory =
        { sword := false, key := false, treasure := false } ∧
      ((run ["e", "s", "fight"]).state.rooms RoomId.cave).npc =
        some (NPC.new NPCType.MONSTER monsterDialogue) ∧
      (NPC.new NPCType.MONSTER monsterDialogue).isDefeated = false ∧
      (run ["e", "s", "fight"]).output.getLast? = some Msg.needSword ∧
      (run ["e", "s", "fight"]).outcome = Outcome.next) := by
  refine ⟨?_, by decide⟩
  intro s hS
  have hst : (handleCommand s "fight").state = s := by
    rw [handleCommand_fight_state]
    split_ifs
    · rfl
    · exact fight_without_sword_eq s hS
  refine ⟨hst, ?_⟩
  intro n hn hM hD hR
  have hT : s.player.hasTreasure = false := by
    rcases hR with h | h
    · exact h
    · obtain ⟨_, h2, h3⟩ := reachable_inventory_chain s h
      cases hT : s.player.hasTreasure
      · rfl
      · rw [h3 (h2 hT)] at hS
        cases hS
  simp [handleCommand, fight, hT, hn, hM, hD, Player.canFight, hS]

/-- C4 in the cave reached by `e, s` with an empty inventory. -/
theorem fight_without_sword_witness :
    (run ["e", "s"]).state.player.hasItem ItemType.SWORD = false ∧
    (handleCommand (run ["e", "s"]).state "fight").state = (run ["e", "s"]).state ∧
    (handleCommand (run ["e", "s"]).state "fight").output = [Msg.needSword] ∧
    (handleCommand (run ["e", "s"]).state "fight").outcome = Outcome.next :=
  have h := fight_without_sword.1 (run ["e", "s"]).state (by decide)
  have h2 := h.2 (NPC.new NPCType.MONSTER monsterDialogue) (by decide) (by decide)
    (by decide) (Or.inr (reachable_runFrom _ _ _ Reachable.init))
  ⟨by decide, h.1, h2.1, h2.2⟩

/-- C5: `fight` is idempotent on the game state: the state after `fight`
followed by `fight` equals the state after a single `fight`, whether the two
lines are handled one by one or run through the loop; and whenever the first
`fight` turned an undefeated occupant into a defeated one, the second prints
"There is nothing to fight here." and leaves the inventory (so also the key) as
the first left it. -/
theorem fight_idempotent (s : GameState) (c : String) :
    (handleCommand (handleCommand s "fight").state "fight").state =
      (handleCommand s "fight").state ∧
    (runFrom s c ["fight", "fight"]).state = (runFrom s c ["fight"]).state ∧
    (∀ n n', s.room.npc = some n → n.isDefeated = false →
      (handleCommand s "fight").state.room.npc = some n' → n'.isDefeated = true →
      (handleCommand (handleCommand s "fight").state "fight").output = [Msg.nothingToFight] ∧
      (handleCommand (handleCommand s "fight").state "fight").state.player.itemInventory =
        (handleCommand s "fight").state.player.itemInventory) := by
  have h1 : (handleCommand (handleCommand s "fight").state "fight").state =
      (handleCommand s "fight").state := by
    cases hT : s.player.hasTreasure
    · have hT1 : (fight s).1.player.hasTreasure = false := by rw [fight_hasTreasure, hT]
      simp [handleCommand_fight_state, hT, hT1, fight_idem]
    · simp [handleCommand_fight_state, hT]
  refine ⟨h1, ?_, ?_⟩
  · cases hT : s.player.hasTreasure
    · have hT1 : (fight s).1.player.hasTreasure = false := by rw [fight_hasTreasure, hT]
      simp [runFrom, handleCommand, hT, hT1, fight_idem]
    · simp [runFrom, handleCommand, hT]
  · intro n n' hn hD hn' hD'
    refine ⟨?_, by rw [h1]⟩
    cases hT : s.player.hasTreasure
    · have hT1 : (fight s).1.player.hasTreasure = false := by rw [fight_hasTreasure, hT]
      have hs : (handleCommand s "fight").state = (fight s).1 := by
        simp [handleCommand_fight_state, hT]
      rw [hs] at hn' ⊢
      rw [handleCommand_fight_output _ hT1]
      rcases fight_fight s with h | h
      · rw [h]
      · rw [h] at hn'
        rw [hn] at hn'
        cases hn'
        rw [hD] at hD'
        cases hD'
    · have hs : (handleCommand s "fight").state = s := by
        simp [handleCommand_fight_state, hT]
      rw [hs, hn] at hn'
      cases hn'
      rw [hD] at hD'
      cases hD'

/-- C5 in the cave with the sword in hand: the first `fight` defeats the
monster, the second finds nothing to fight. -/
theorem fight_idempotent_witness :
    (handleCommand (handleCommand (run armedCaveLines).state "fight").state "fight").output =
      [Msg.nothingToFight] ∧
    (handleCommand (handleCommand (run armedCaveLines).state "fight").state
        "fight").state.player.itemInventory =
      (handleCommand (run armedCaveLines).state "fight").state.player.itemInventory :=
  (fight_idempotent (run armedCaveLines).state "").2.2
    (NPC.new NPCType.MONSTER monsterDialogue)
    { NPC.new NPCType.MONSTER monsterDialogue with isDefeated := true }
    (by decide) (by decide) (by decide) (by decide)

/-! ## Movement and the move counter -/

/-- C6, as stated, fails: with the counter at the largest `int` a successful move
does not leave the counter one higher, the increment wraps to the smallest
`int`; and after the `2^31` successful moves of pacing `2^30` times between
forest and ruins, the counter differs from the number of successful moves. -/
theorem moveCount_wraps_at_max :
    moveSucceeds counterAtMax "e" = true ∧
    counterAtMax.player.moveCount.val = 2147483647 ∧
    (handleCommand counterAtMax "e").state.player.moveCount.val = -2147483648 ∧
    (handleCommand counterAtMax "e").state.player.moveCount.val ≠
      counterAtMax.player.moveCount.val + 1 ∧
    successfulMoves initialState (pacing 1073741824) = 2147483648 ∧
    (run (pacing 1073741824)).state.player.moveCount.val ≠
      successfulMoves initialState (pacing 1073741824) := by
  have h : successfulMoves initialState (pacing 1073741824) = 2147483648 :=
    successfulMoves_pacing 1073741824 initialState rfl rfl rfl
  refine ⟨by decide, by decide, by decide, by decide, h, ?_⟩
  rw [h]
  have hle := (run (pacing 1073741824)).state.player.moveCount.property.2
  intro e
  rw [e] at hle
  omega

/-- C6 (amended): a line is a successful move exactly when it is one of the eight
movement tokens, the has-treasure flag is unset and the current room has a
neighbour in the parsed direction.  For every state whose counter is below the
largest `int` and every line, the counter afterwards equals the counter before
plus one exactly when the line is a successful move; for every state, every
line that is not a successful move leaves the counter unchanged.  Hence after
any input sequence from the initial state with at most `2^31 - 1` successful
moves the counter equals the number of successful moves. -/
theorem moveCount_counts_moves :
    (∀ (s : GameState) (line : String),
      moveSucceeds s line = true ↔
        (line ∈ ["n", "north", "e", "east", "s", "south", "w", "west"] ∧
          s.player.hasTreasure = false ∧
          ∃ d t, parseDirection line = some d ∧ s.room.connections d = some t)) ∧
    (∀ (s : GameState) (line : String), s.player.moveCount.val < 2147483647 →
      ((handleCommand s line).state.player.moveCount.val = s.player.moveCount.val + 1 ↔
        moveSucceeds s line = true)) ∧
    (∀ (s : GameState) (line : String), moveSucceeds s line = false →
      (handleCommand s line).state.player.moveCount = s.player.moveCount) ∧
    (∀ lines : List String, successfulMoves initialState lines ≤ 2147483647 →
      (run lines).state.player.moveCount.val = successfulMoves initialState lines) := by
  refine ⟨moveSucceeds_iff, ?_, ?_, ?_⟩
  · intro s line hlt
    rw [handleCommand_moveCount]
    cases hm : moveSucceeds s line
    · simp
    · simp [CInt.succ_val _ hlt]
  · intro s line hm
    rw [handleCommand_moveCount, hm]
    simp
  · intro lines hb
    have h := runFrom_moveCount lines initialState "" (by
      have : initialState.player.moveCount.val = 0 := by decide
      rw [this]; omega)
    have h0 : initialState.player.moveCount.val = 0 := by decide
    rw [h0] at h
    simpa [run] using h

set_option maxRecDepth 8192 in
/-- C6 on the first move east and on the winning play-through of 17 moves. -/
theorem moveCount_counts_moves_witness :
    (handleCommand initialState "e").state.player.moveCount.val =
      initialState.player.moveCount.val + 1 ∧
    (run winningLines).state.player.moveCount.val = successfulMoves initialState winningLines ∧
    successfulMoves initialState winningLines = 17 :=
  ⟨(moveCount_counts_moves.2.1 initialState "e" (by decide)).mpr (by decide),
    moveCount_counts_moves.2.2.2 winningLines (by decide), by decide⟩

/-- C7: each of the eight movement tokens parses to its direction.  For every
state with the has-treasure flag unset and every movement token, the move
succeeds (the "You move" message is printed) iff the current room has a
neighbour in the parsed direction, whatever the inventory, the items and the
occupants are; on success the new position is that neighbour, the move counter
is incremented, and inventory, has-treasure flag and all rooms are unchanged;
on failure "You cannot go that way" is printed and the state is unchanged. -/
theorem move_iff_neighbour :
    (parseDirection "n" = some Direction.NORTH ∧ parseDirection "north" = some Direction.NORTH ∧
      parseDirection "e" = some Direction.EAST ∧ parseDirection "east" = some Direction.EAST ∧
      parseDirection "s" = some Direction.SOUTH ∧ parseDirection "south" = some Direction.SOUTH ∧
      parseDirection "w" = some Direction.WEST ∧ parseDirection "west" = some Direction.WEST) ∧
    (∀ (s : GameState) (line : String) (d : Direction),
      s.player.hasTreasure = false → parseDirection line = some d →
      ((handleCommand s line).output = [Msg.youMove (directionToString d)] ↔
        s.room.canMove d = true) ∧
      (s.room.canMove d = true ↔ s.room.connections d ≠ none) ∧
      (∀ t, s.room.connections d = some t →
        (handleCommand s line).state.player.currentRoom = t ∧
        (handleCommand s line).state.player.moveCount = s.player.moveCount.succ ∧
        (handleCommand s line).state.player.itemInventory = s.player.itemInventory ∧
        (handleCommand s line).state.player.hasTreasure = s.player.hasTreasure ∧
        (handleCommand s line).state.rooms = s.rooms ∧
        (handleCommand s line).output = [Msg.youMove (directionToString d)] ∧
        (handleCommand s line).outcome = Outcome.next) ∧
      (s.room.connections d = none →
        (handleCommand s line).state = s ∧
        (handleCommand s line).output = [Msg.cannotGo] ∧
        (handleCommand s line).outcome = Outcome.next)) := by
  refine ⟨by decide, ?_⟩
  intro s line d hT hp
  rw [handleCommand_move s line d hT hp]
  cases hc : s.room.connections d with
  | none => simp [move, hc, Room.canMove]
  | some t => simp [move, hc, Room.canMove]

/-- C7 in the cave with the monster undefeated: `n` leads back to the ruins, `s`
is refused. -/
theorem move_iff_neighbour_witness :
    ((run ["e", "s"]).state.rooms RoomId.cave).npc =
      some (NPC.new NPCType.MONSTER monsterDialogue) ∧
    (handleCommand (run ["e", "s"]).state "n").state.player.currentRoom = RoomId.ruins ∧
    (handleCommand (run ["e", "s"]).state "n").state.rooms = (run ["e", "s"]).state.rooms ∧
    (handleCommand (run ["e", "s"]).state "s").state = (run ["e", "s"]).state ∧
    (handleCommand (run ["e", "s"]).state "s").output = [Msg.cannotGo] :=
  have h := (move_iff_neighbour.2 (run ["e", "s"]).state "n" Direction.NORTH (by decide)
    (by decide)).2.2.1 RoomId.ruins (by decide)
  have h2 := (move_iff_neighbour.2 (run ["e", "s"]).state "s" Direction.SOUTH (by decide)
    (by decide)).2.2.2 (by decide)
  ⟨by decide, h.1, h.2.2.2.2.1, h2.1, h2.2.1⟩

/-- C8: in every reachable state the exits shown for the mountain are exactly
`north`, so they do not contain `east`, while the east neighbour of the
mountain is the hidden room; and with the player at the mountain and the
has-treasure flag unset, the line `e` or `east` moves the player to the hidden
room. -/
theorem mountain_east_hidden (s : GameState) (hs : Reachable s) :
    "east" ∉ (s.rooms RoomId.mountain).shownPaths ∧
    (s.rooms RoomId.mountain).shownPaths = ["north"] ∧
    (s.rooms RoomId.mountain).connections Direction.EAST = some RoomId.hiddenRoom ∧
    (s.player.currentRoom = RoomId.mountain → s.player.hasTreasure = false →
      ∀ line, line = "e" ∨ line = "east" →
        (handleCommand s line).state.player.currentRoom = RoomId.hiddenRoom ∧
        (handleCommand s line).output = [Msg.youMove "east"] ∧
        (handleCommand s line).outcome = Outcome.next) := by
  have hl := reachable_layout s hs RoomId.mountain
  have hshown : (s.rooms RoomId.mountain).shownPaths = ["north"] := by
    unfold Room.shownPaths
    rw [hl.2.1, hl.2.2.1]
    decide
  have hconn : (s.rooms RoomId.mountain).connections Direction.EAST = some RoomId.hiddenRoom := by
    rw [hl.1]
    decide
  refine ⟨by rw [hshown]; decide, hshown, hconn, ?_⟩
  intro hcur hT line hline
  have hp : parseDirection line = some Direction.EAST := by
    rcases hline with h | h <;> subst h <;> decide
  have hc : s.room.connections Direction.EAST = some RoomId.hiddenRoom := by
    unfold GameState.room
    rw [hcur]; exact hconn
  rw [handleCommand_move s line Direction.EAST hT hp]
  simp [move, hc, directionToString]

/-- C8 at the mountain reached by `n, e, e, s`. -/
theorem mountain_east_hidden_witness :
    (handleCommand (run ["n", "e", "e", "s"]).state "e").state.player.currentRoom =
      RoomId.hiddenRoom ∧
    "east" ∉ ((run ["n", "e", "e", "s"]).state.rooms RoomId.mountain).shownPaths :=
  have h := mountain_east_hidden (run ["n", "e", "e", "s"]).state (reachable_runFrom _ _ _ Reachable.init)
  ⟨(h.2.2.2 (by decide) (by decide) "e" (Or.inl rfl)).1, h.1⟩

/-! ## The victory check -/

/-- C9: in every state with the has-treasure flag set, each of the lines `talk`,
`fight`, `take`, `n`, `north`, `e`, `east`, `s`, `south`, `w`, `west` ends the
loop with exactly the victory banner, which shows the current move counter, and
the state is unchanged: the effect of the command itself is not applied. -/
theorem victory_check_first (s : GameState) (hT : s.player.hasTreasure = true) (line : String)
    (hl : line ∈ ["talk", "fight", "take", "n", "north", "e", "east", "s", "south", "w",
      "west"]) :
    (handleCommand s line).state = s ∧
    (handleCommand s line).output = [Msg.victoryBanner s.player.moveCount] ∧
    (handleCommand s line).outcome = Outcome.victory ∧
    (∀ (c : String) (rest : List String),
      (runFrom s c (line :: rest)).state = s ∧
      (runFrom s c (line :: rest)).output =
        loopHead s c ++ [Msg.victoryBanner s.player.moveCount] ∧
      (runFrom s c (line :: rest)).outcome = Outcome.victory) := by
  have h1 : line ≠ "look" := by rintro rfl; revert hl; decide
  have h2 : line ≠ "help" := by rintro rfl; revert hl; decide
  have h3 : line ≠ "quit" := by rintro rfl; revert hl; decide
  have h := handleCommand_victory s line hT h1 h2 h3
  refine ⟨by rw [h], by rw [h], by rw [h], ?_⟩
  intro c rest
  simp [runFrom, h]

set_option maxRecDepth 4096 in
/-- C9 right after the treasure was taken: `fight` ends the game. -/
theorem victory_check_first_witness :
    (handleCommand (run winningLines).state "fight").state = (run winningLines).state ∧
    (handleCommand (run winningLines).state "fight").output =
      [Msg.victoryBanner (run winningLines).state.player.moveCount] ∧
    (handleCommand (run winningLines).state "fight").outcome = Outcome.victory :=
  have h := victory_check_first (run winningLines).state (by decide) "fight" (by decide)
  ⟨h.1, h.2.1, h.2.2.1⟩

set_option maxRecDepth 4096 in
/-- C10, as stated, fails: right after the treasure was taken, the line `look`
prints the long description, no victory banner, and the loop continues. -/
theorem look_after_treasure_continues :
    (run approachLines).state.room.item = ItemType.TREASURE ∧
    (run winningLines).state.player.hasItem ItemType.TREASURE = true ∧
    (run winningLines).state.player.hasTreasure = true ∧
    (handleCommand (run winningLines).state "look").outcome = Outcome.next ∧
    (handleCommand (run winningLines).state "look").output =
      (run winningLines).state.room.describeLook ∧
    (handleCommand (run winningLines).state "look").output.any Msg.isVictoryBanner = false ∧
    (run (winningLines ++ ["look"])).outcome = Outcome.next := by
  decide

/-- C10 (amended): after a `take` that succeeds on the treasure the has-treasure
flag is set and the loop continues; in the very next pass every line other than
`look`, `help` and `quit` prints the victory banner and ends the loop, `look`
and `help` print no banner and continue the loop with the state unchanged, and
`quit` ends the loop with the farewell banner instead. -/
theorem victory_after_treasure (s : GameState)
    (hT : s.player.hasTreasure = false)
    (hI : s.room.item = ItemType.TREASURE)
    (hK : s.player.hasItem ItemType.KEY = true) :
    (handleCommand s "take").state.player.hasTreasure = true ∧
    (handleCommand s "take").outcome = Outcome.next ∧
    (∀ line, line ≠ "look" → line ≠ "help" → line ≠ "quit" →
      (handleCommand (handleCommand s "take").state line).outcome = Outcome.victory ∧
      (handleCommand (handleCommand s "take").state line).output =
        [Msg.victoryBanner (handleCommand s "take").state.player.moveCount] ∧
      (handleCommand (handleCommand s "take").state line).state =
        (handleCommand s "take").state) ∧
    (∀ line, line = "look" ∨ line = "help" →
      (handleCommand (handleCommand s "take").state line).outcome = Outcome.next ∧
      (handleCommand (handleCommand s "take").state line).output.any Msg.isVictoryBanner =
        false ∧
      (handleCommand (handleCommand s "take").state line).state =
        (handleCommand s "take").state) ∧
    ((handleCommand (handleCommand s "take").state "quit").outcome = Outcome.quit ∧
      (handleCommand (handleCommand s "take").state "quit").output = [Msg.quitBanner] ∧
      (handleCommand (handleCommand s "take").state "quit").state =
        (handleCommand s "take").state) := by
  have hf : (handleCommand s "take").state.player.hasTreasure = true := by
    simp [handleCommand, take, hT, hI, hK, Player.addItem]
  have hn : (handleCommand s "take").outcome = Outcome.next := by
    simp [handleCommand, hT]
  refine ⟨hf, hn, ?_, ?_, ?_⟩
  · intro line h1 h2 h3
    rw [handleCommand_victory _ line hf h1 h2 h3]
    exact ⟨rfl, rfl, rfl⟩
  · intro line hl
    rcases hl with h | h <;> subst h
    · rw [handleCommand_look]
      exact ⟨rfl, look_no_banner _, rfl⟩
    · rw [handleCommand_help]
      exact ⟨rfl, rfl, rfl⟩
  · rw [handleCommand_quit]
    exact ⟨rfl, rfl, rfl⟩

set_option maxRecDepth 4096 in
/-- C10 at the hidden room, entered with the key: after `take`, an unknown line
ends the game with the banner. -/
theorem victory_after_treasure_witness :
    (handleCommand (handleCommand (run approachLines).state "take").state "x").outcome =
      Outcome.victory ∧
    (handleCommand (handleCommand (run approachLines).state "take").state "x").output =
      [Msg.victoryBanner (handleCommand (run approachLines).state "take").state.player.moveCount] :=
  have h := (victory_after_treasure (run approachLines).state (by decide) (by decide)
    (by decide)).2.2.1 "x" (by decide) (by decide) (by decide)
  ⟨h.1, h.2.1⟩

/-! ## Winning the game -/

set_option maxRecDepth 8192 in
/-- C11: the game is winnable.  Some input ends the loop with the victory banner;
the lines `n, e, e, s, take, n, w, w, s, e, s, fight, n, w, n, e, e, s, e, take`
acquire the sword at the mountain, the key in the cave and the treasure in the
hidden room after 17 moves, and every further line that is not `look`, `help`
or `quit` ends the loop with the victory banner reporting 17 moves. -/
theorem game_winnable :
    (∃ lines : List String, (run lines).outcome = Outcome.victory) ∧
    ((run ["n", "e", "e", "s", "take"]).state.player.currentRoom = RoomId.mountain ∧
      (run ["n", "e", "e", "s", "take"]).state.player.hasItem ItemType.SWORD = true) ∧
    ((run ["n", "e", "e", "s", "take", "n", "w", "w", "s", "e", "s", "fight"]
        ).state.player.currentRoom = RoomId.cave ∧
      (run ["n", "e", "e", "s", "take", "n", "w", "w", "s", "e", "s", "fight"]
        ).state.player.hasItem ItemType.KEY = true) ∧
    ((run winningLines).state.player.currentRoom = RoomId.hiddenRoom ∧
      (run winningLines).state.player.hasItem ItemType.TREASURE = true ∧
      (run winningLines).state.player.moveCount.val = 17 ∧
      (run winningLines).outcome = Outcome.next) ∧
    (∀ line : String, line ≠ "look" → line ≠ "help" → line ≠ "quit" →
      (run (winningLines ++ [line])).outcome = Outcome.victory ∧
      (run (winningLines ++ [line])).output.getLast? =
        some (Msg.victoryBanner ⟨17, by decide⟩)) := by
  have hT : (run winningLines).state.player.hasTreasure = true := by decide
  have hN : (run winningLines).outcome = Outcome.next := by decide
  have hC : (run winningLines).state.player.moveCount = ⟨17, by decide⟩ := by decide
  have hlast : ∀ line : String, line ≠ "look" → line ≠ "help" → line ≠ "quit" →
      (run (winningLines ++ [line])).outcome = Outcome.victory ∧
      (run (winningLines ++ [line])).output.getLast? =
        some (Msg.victoryBanner ⟨17, by decide⟩) := by
    intro line h1 h2 h3
    obtain ⟨-, ho, hout⟩ := runFrom_append winningLines [line] initialState "" hN
    have hv := handleCommand_victory (run winningLines).state line hT h1 h2 h3
    have hb := runFrom_cons_break (run winningLines).state (run winningLines).command line []
      (by rw [hv]; decide)
    unfold run at *
    rw [ho, hout, hb.2.1, hb.2.2.1, hv, hC]
    simp
  refine ⟨⟨winningLines ++ ["x"], (hlast "x" (by decide) (by decide) (by decide)).1⟩,
    by decide, by decide, by decide, hlast⟩

/-- C11 with the unknown line `x` as the last line. -/
theorem game_winnable_witness :
    (run (winningLines ++ ["x"])).outcome = Outcome.victory ∧
    (run (winningLines ++ ["x"])).output.getLast? = some (Msg.victoryBanner ⟨17, by decide⟩) :=
  game_winnable.2.2.2.2 "x" (by decide) (by decide) (by decide)

/-- C12: in every state reachable from the initial state, and so after every
sequence of input lines, if the inventory contains the treasure then the
monster of the cave is defeated and the inventory also contains the sword and
the key. -/
theorem treasure_requires_defeated_monster :
    (∀ s : GameState, Reachable s → s.player.hasItem ItemType.TREASURE = true →
      (s.rooms RoomId.cave).npc = some (caveMonster true) ∧
      s.player.hasItem ItemType.SWORD = true ∧
      s.player.hasItem ItemType.KEY = true) ∧
    (caveMonster true).type = NPCType.MONSTER ∧ (caveMonster true).isDefeated = true ∧
    (∀ lines : List String, (run lines).state.player.hasItem ItemType.TREASURE = true →
      (((run lines).state.rooms RoomId.cave).npc = some (caveMonster true) ∧
      (run lines).state.player.hasItem ItemType.SWORD = true ∧
      (run lines).state.player.hasItem ItemType.KEY = true)) := by
  have main : ∀ s : GameState, Reachable s → s.player.hasItem ItemType.TREASURE = true →
      (s.rooms RoomId.cave).npc = some (caveMonster true) ∧
      s.player.hasItem ItemType.SWORD = true ∧
      s.player.hasItem ItemType.KEY = true := by
    intro s hs ht
    obtain ⟨_, h2, h3⟩ := reachable_inventory_chain s hs
    have hT : s.player.hasTreasure = true := by rw [reachable_hasTreasure s hs]; exact ht
    have hk := h2 hT
    have hc := (reachable_occupants s hs).2
    rw [hk] at hc
    exact ⟨hc, h3 hk, hk⟩
  exact ⟨main, rfl, rfl, fun lines => main _ (reachable_runFrom _ _ _ Reachable.init)⟩

set_option maxRecDepth 4096 in
/-- C12 after the winning play-through. -/
theorem treasure_requires_defeated_monster_witness :
    ((run winningLines).state.rooms RoomId.cave).npc = some (caveMonster true) ∧
    (run winningLines).state.player.hasItem ItemType.SWORD = true ∧
    (run winningLines).state.player.hasItem ItemType.KEY = true :=
  treasure_requires_defeated_monster.2.2.2 winningLines (by decide)

/-! ## The world builder -/

/-- C13: the world builder produces exactly eight locations, and the adjacency
it wires is exactly the seven bidirectional pairs of the spec, fourteen
directed edges closed under reversal; every other (location, direction) slot
has no neighbour. -/
theorem world_adjacency :
    (∀ r : RoomId, r ∈ allRooms) ∧ allRooms.Nodup ∧ allRooms.length = 8 ∧
    specEdges.Nodup ∧ specEdges.length = 14 ∧
    (∀ e ∈ specEdges, (e.2.2, opposite e.2.1, e.1) ∈ specEdges) ∧
    (∀ (r : RoomId) (d : Direction) (t : RoomId),
      (initialState.rooms r).connections d = some t ↔ (r, d, t) ∈ specEdges) ∧
    (∀ (r : RoomId) (d : Direction), (∀ t, (r, d, t) ∉ specEdges) →
      (initialState.rooms r).connections d = none) := by
  have hiff : ∀ (r : RoomId) (d : Direction) (t : RoomId),
      (initialState.rooms r).connections d = some t ↔ (r, d, t) ∈ specEdges := by
    intro r d t
    cases r <;> cases d <;> cases t <;> decide
  refine ⟨by intro r; cases r <;> decide, by decide, by decide, by decide, by decide, by decide,
    hiff, ?_⟩
  intro r d h
  cases hc : (initialState.rooms r).connections d with
  | none => rfl
  | some t => exact absurd ((hiff r d t).mp hc) (h t)

/-- C13 at a slot outside the fourteen edges: the forest has no south neighbour. -/
theorem world_adjacency_witness :
    (initialState.rooms RoomId.forest).connections Direction.SOUTH = none :=
  world_adjacency.2.2.2.2.2.2.2 RoomId.forest Direction.SOUTH (fun t => by cases t <;> decide)

/-- C14: adjacency is symmetric in every reachable state: if the neighbour of `a`
in direction `d` is `b`, then the neighbour of `b` in the opposite direction
(north/south and east/west swapped) is `a`; and no line, in any state, changes
the adjacency of any room. -/
theorem adjacency_symmetric :
    (∀ s : GameState, Reachable s → ∀ (a b : RoomId) (d : Direction),
      (s.rooms a).connections d = some b → (s.rooms b).connections (opposite d) = some a) ∧
    (∀ (s : GameState) (line : String) (r : RoomId),
      ((handleCommand s line).state.rooms r).connections = (s.rooms r).connections) ∧
    (opposite Direction.NORTH = Direction.SOUTH ∧ opposite Direction.SOUTH = Direction.NORTH ∧
      opposite Direction.EAST = Direction.WEST ∧ opposite Direction.WEST = Direction.EAST) := by
  refine ⟨?_, fun s line r => (handleCommand_layout s line r).1, by decide⟩
  intro s hs a b d h
  rw [(reachable_layout s hs a).1] at h
  rw [(reachable_layout s hs b).1]
  revert h
  cases a <;> cases b <;> cases d <;> decide

/-- C14 for the edge from the forest east to the ruins, after one move. -/
theorem adjacency_symmetric_witness :
    ((run ["e"]).state.rooms RoomId.ruins).connections (opposite Direction.EAST) =
      some RoomId.forest :=
  adjacency_symmetric.1 (run ["e"]).state (reachable_runFrom _ _ _ Reachable.init) RoomId.forest RoomId.ruins
    Direction.EAST (by decide)

/-- C15: in the initial state the village holds the undefeated villager, the cave
the undefeated monster, the mountain the sword and the hidden room the
treasure; no other room has an item or an occupant, no room holds a key, and
the player is at the forest with an empty inventory, the has-treasure flag
unset and a move counter of 0. -/
theorem initial_state_contents :
    (initialState.rooms RoomId.village).npc = some (NPC.new NPCType.VILLAGER villagerDialogue) ∧
    (NPC.new NPCType.VILLAGER villagerDialogue).isDefeated = false ∧
    (initialState.rooms RoomId.cave).npc = some (NPC.new NPCType.MONSTER monsterDialogue) ∧
    (NPC.new NPCType.MONSTER monsterDialogue).isDefeated = false ∧
    (initialState.rooms RoomId.mountain).item = ItemType.SWORD ∧
    (initialState.rooms RoomId.hiddenRoom).item = ItemType.TREASURE ∧
    (initialState.rooms RoomId.hiddenRoom).isLocked = true ∧
    (∀ r, r ≠ RoomId.mountain → r ≠ RoomId.hiddenRoom →
      (initialState.rooms r).item = ItemType.NONE) ∧
    (∀ r, r ≠ RoomId.village → r ≠ RoomId.cave → (initialState.rooms r).npc = none) ∧
    (∀ r, (initialState.rooms r).item ≠ ItemType.KEY) ∧
    initialState.player.currentRoom = RoomId.forest ∧
    initialState.player.itemInventory = { sword := false, key := false, treasure := false } ∧
    (∀ i, initialState.player.hasItem i = false) ∧
    initialState.player.hasTreasure = false ∧
    initialState.player.moveCount.val = 0 := by
  refine ⟨rfl, by decide, by decide, by decide, by decide, by decide, by decide, ?_, ?_, ?_,
    by decide, by decide, ?_, by decide, by decide⟩
  · intro r; cases r <;> decide
  · intro r; cases r <;> decide
  · intro r; cases r <;> decide
  · intro i; cases i <;> decide

/-- C15 at the forest, which has neither item nor occupant. -/
theorem initial_state_contents_witness :
    (initialState.rooms RoomId.forest).item = ItemType.NONE ∧
    (initialState.rooms RoomId.forest).npc = none :=
  ⟨initial_state_contents.2.2.2.2.2.2.2.1 RoomId.forest (by decide) (by decide),
    initial_state_contents.2.2.2.2.2.2.2.2.1 RoomId.forest (by decide) (by decide)⟩

/-! ## Command recognition -/

/-- C16: each short movement token is handled exactly like its long form; with
the has-treasure flag unset, a line outside the fourteen tokens prints the
unknown-command message, leaves the state unchanged and continues the loop,
while none of the fourteen tokens prints that message; the match is exact and
case-sensitive, so `LOOK`, `Take` and the empty line are not tokens. -/
theorem command_recognition :
    (∀ s : GameState,
      handleCommand s "n" = handleCommand s "north" ∧
      handleCommand s "e" = handleCommand s "east" ∧
      handleCommand s "s" = handleCommand s "south" ∧
      handleCommand s "w" = handleCommand s "west") ∧
    (∀ (s : GameState) (line : String), s.player.hasTreasure = false →
      line ∉ commandTokens →
      (handleCommand s line).state = s ∧
      (handleCommand s line).output = [Msg.unknownCommand] ∧
      (handleCommand s line).outcome = Outcome.next) ∧
    (∀ (s : GameState) (line : String), s.player.hasTreasure = false →
      line ∈ commandTokens → Msg.unknownCommand ∉ (handleCommand s line).output) ∧
    ("LOOK" ∉ commandTokens ∧ "Take" ∉ commandTokens ∧ "" ∉ commandTokens) := by
  refine ⟨?_, ?_, ?_, by decide⟩
  · intro s
    refine ⟨?_, ?_, ?_, ?_⟩ <;> simp [handleCommand, parseDirection]
  · intro s line hT h
    rw [handleCommand_unknown s line hT h]
    exact ⟨rfl, rfl, rfl⟩
  · intro s line hT h
    simp only [commandTokens, List.mem_cons, List.mem_singleton, List.mem_nil_iff, or_false] at h
    rcases h with h | h | h | h | h | h | h | h | h | h | h | h | h | h <;> subst h
    · rw [handleCommand_look]; exact look_no_unknown s
    · rw [handleCommand_help]; simp
    · rw [handleCommand_quit]; simp
    · simp only [handleCommand, hT]; exact talk_no_unknown s
    · rw [handleCommand_fight_output s hT]; exact fight_no_unknown s
    · simp only [handleCommand, hT]; exact take_no_unknown s
    all_goals
      first
      | (rw [handleCommand_move s _ Direction.NORTH hT (by decide)]; exact move_no_unknown s _)
      | (rw [handleCommand_move s _ Direction.EAST hT (by decide)]; exact move_no_unknown s _)
      | (rw [handleCommand_move s _ Direction.SOUTH hT (by decide)]; exact move_no_unknown s _)
      | (rw [handleCommand_move s _ Direction.WEST hT (by decide)]; exact move_no_unknown s _)

/-- C16 for the line `LOOK` in the initial state. -/
theorem command_recognition_witness :
    (handleCommand initialState "LOOK").state = initialState ∧
    (handleCommand initialState "LOOK").output = [Msg.unknownCommand] ∧
    (handleCommand initialState "LOOK").outcome = Outcome.next :=
  command_recognition.2.1 initialState "LOOK" (by decide) (by decide)

set_option maxRecDepth 4096 in
/-- C17, as stated, fails: the line ` look` (a leading blank) prints the
unknown-command message where `look` prints the long description, and at the
mountain the line `take ` (a trailing blank) does not take the sword that
`take` takes. -/
theorem padded_command_not_recognized :
    "look" ∈ commandTokens ∧ "take" ∈ commandTokens ∧
    allWhitespace " " = true ∧ " " ++ "look" = " look" ∧ "take" ++ " " = "take " ∧
    (handleCommand initialState "look").output = initialState.room.describeLook ∧
    (handleCommand initialState " look").output = [Msg.unknownCommand] ∧
    (handleCommand initialState "look").output ≠ (handleCommand initialState " look").output ∧
    (handleCommand (run ["n", "e", "e", "s"]).state "take").state.player.hasItem
      ItemType.SWORD = true ∧
    (handleCommand (run ["n", "e", "e", "s"]).state "take ").state.player.hasItem
      ItemType.SWORD = false := by
  decide

/-- C17 (amended): commands are matched on the whole input line as read, without
trimming: a command token with leading and/or trailing whitespace (at least
one whitespace character) is not a command token; with the has-treasure flag
unset such a line prints the unknown-command message and leaves the state
unchanged, and with the flag set it ends the loop with the victory banner. -/
theorem no_trimming :
    ∀ c ∈ commandTokens, ∀ pre post : String,
      allWhitespace pre = true → allWhitespace post = true → (pre ≠ "" ∨ post ≠ "") →
      pre ++ c ++ post ∉ commandTokens ∧
      (∀ s : GameState, s.player.hasTreasure = false →
        (handleCommand s (pre ++ c ++ post)).state = s ∧
        (handleCommand s (pre ++ c ++ post)).output = [Msg.unknownCommand] ∧
        (handleCommand s (pre ++ c ++ post)).outcome = Outcome.next) ∧
      (∀ s : GameState, s.player.hasTreasure = true →
        (handleCommand s (pre ++ c ++ post)).state = s ∧
        (handleCommand s (pre ++ c ++ post)).output =
          [Msg.victoryBanner s.player.moveCount] ∧
        (handleCommand s (pre ++ c ++ post)).outcome = Outcome.victory) := by
  intro c _ pre post hpre hpost hne
  have hnot := padded_not_token c pre post hpre hpost hne
  refine ⟨hnot, ?_, ?_⟩
  · intro s hT
    rw [handleCommand_unknown s _ hT hnot]
    exact ⟨rfl, rfl, rfl⟩
  · intro s hT
    have h1 : pre ++ c ++ post ≠ "look" := fun h => hnot (by rw [h]; decide)
    have h2 : pre ++ c ++ post ≠ "help" := fun h => hnot (by rw [h]; decide)
    have h3 : pre ++ c ++ post ≠ "quit" := fun h => hnot (by rw [h]; decide)
    rw [handleCommand_victory s _ hT h1 h2 h3]
    exact ⟨rfl, rfl, rfl⟩

/-- C17 for `look` between a blank and a tab, in the initial state. -/
theorem no_trimming_witness :
    (handleCommand initialState (" " ++ "look" ++ "\t")).state = initialState ∧
    (handleCommand initialState (" " ++ "look" ++ "\t")).output = [Msg.unknownCommand] ∧
    (handleCommand initialState (" " ++ "look" ++ "\t")).outcome = Outcome.next :=
  (no_trimming "look" (by decide) " " "\t" (by decide) (by decide) (Or.inl (by decide))).2.1
    initialState (by decide)

/-! ## Inspection commands -/

/-- C18: in every state the lines `look`, `help` and `talk` leave the game state
unchanged (position, inventory, has-treasure flag, move counter, every item
slot and every occupant); `look` and `help` never end the loop, and `talk`
continues it whenever the has-treasure flag is unset. -/
theorem look_help_talk_frame (s : GameState) :
    ((handleCommand s "look").state = s ∧ (handleCommand s "look").outcome = Outcome.next) ∧
    ((handleCommand s "help").state = s ∧ (handleCommand s "help").outcome = Outcome.next ∧
      (handleCommand s "help").output = [Msg.helpMenu]) ∧
    ((handleCommand s "talk").state = s ∧
      (s.player.hasTreasure = false →
        (handleCommand s "talk").outcome = Outcome.next ∧
        (handleCommand s "talk").output = talk s)) ∧
    (∀ line, line ∈ ["look", "help", "talk"] →
      (handleCommand s line).state.player = s.player ∧
      (∀ r, ((handleCommand s line).state.rooms r).item = (s.rooms r).item ∧
        ((handleCommand s line).state.rooms r).npc = (s.rooms r).npc)) := by
  have h3 : (handleCommand s "talk").state = s := by
    cases hT : s.player.hasTreasure <;> simp [handleCommand, hT]
  refine ⟨by rw [handleCommand_look]; exact ⟨rfl, rfl⟩,
    by rw [handleCommand_help]; exact ⟨rfl, rfl, rfl⟩, ⟨h3, ?_⟩, ?_⟩
  · intro hT
    simp [handleCommand, hT]
  · intro line hl
    simp only [List.mem_cons, List.mem_singleton, List.mem_nil_iff, or_false] at hl
    rcases hl with h | h | h <;> subst h
    · rw [handleCommand_look]; exact ⟨rfl, fun _ => ⟨rfl, rfl⟩⟩
    · rw [handleCommand_help]; exact ⟨rfl, fun _ => ⟨rfl, rfl⟩⟩
    · rw [h3]; exact ⟨rfl, fun _ => ⟨rfl, rfl⟩⟩

/-- C18 for `talk` next to the undefeated monster. -/
theorem look_help_talk_frame_witness :
    (handleCommand (run ["e", "s"]).state "talk").state.player = (run ["e", "s"]).state.player ∧
    ((handleCommand (run ["e", "s"]).state "talk").state.rooms RoomId.cave).npc =
      ((run ["e", "s"]).state.rooms RoomId.cave).npc :=
  have h := (look_help_talk_frame (run ["e", "s"]).state).2.2.2 "talk" (by decide)
  ⟨h.1, (h.2 RoomId.cave).2⟩

set_option maxRecDepth 4096 in
/-- C19, as stated, fails: at the mountain with the key in the inventory, `look`
prints only the hint; the long description of the mountain is not printed. -/
theorem look_hint_replaces_description :
    (run keyAtMountainLines).state.player.currentRoom = RoomId.mountain ∧
    (run keyAtMountainLines).state.player.hasItem ItemType.KEY = true ∧
    (handleCommand (run keyAtMountainLines).state "look").output = [Msg.mountainHint] ∧
    Msg.roomLook mountainName mountainDetailed ∉
      (handleCommand (run keyAtMountainLines).state "look").output ∧
    (run keyAtMountainLines).state.room.name = mountainName ∧
    (run keyAtMountainLines).state.room.detailedDescription = mountainDetailed := by
  refine ⟨by decide, by decide, by decide, by decide, rfl, rfl⟩

/-- C19 (amended): `look` prints the long description of the current room
followed by the exits/occupant/item summary, except when the name of the
current room contains `Mountain` (in a reachable state: exactly when the
player is at the mountain) and the inventory contains the key; then it prints
the hint text alone, in place of the description and the summary. -/
theorem look_output :
    (∀ s : GameState,
      ¬ (nameHasMountain s.room.name = true ∧ s.player.hasItem ItemType.KEY = true) →
      (handleCommand s "look").output =
        Msg.roomLook s.room.name s.room.detailedDescription ::
          s.room.showAvailablePathsAndItems) ∧
    (∀ s : GameState,
      nameHasMountain s.room.name = true → s.player.hasItem ItemType.KEY = true →
      (handleCommand s "look").output = [Msg.mountainHint]) ∧
    (∀ s : GameState, Reachable s →
      (nameHasMountain s.room.name = true ↔ s.player.currentRoom = RoomId.mountain)) ∧
    (∀ s : GameState, Reachable s →
      (s.player.currentRoom ≠ RoomId.mountain ∨ s.player.hasItem ItemType.KEY = false) →
      (handleCommand s "look").output =
        Msg.roomLook s.room.name s.room.detailedDescription ::
          s.room.showAvailablePathsAndItems) ∧
    (∀ s : GameState, Reachable s →
      s.player.currentRoom = RoomId.mountain → s.player.hasItem ItemType.KEY = true →
      (handleCommand s "look").output = [Msg.mountainHint]) ∧
    (∀ r : Room, r.showAvailablePathsAndItems =
      (if r.numPaths > 0 then [Msg.paths r.shownPaths] else []) ++ npcLine r.npc ++
        itemLine r.item) := by
  have g1 : ∀ s : GameState,
      ¬ (nameHasMountain s.room.name = true ∧ s.player.hasItem ItemType.KEY = true) →
      (handleCommand s "look").output =
        Msg.roomLook s.room.name s.room.detailedDescription ::
          s.room.showAvailablePathsAndItems := by
    intro s h
    rw [handleCommand_look]
    simp [look, h, Room.describeLook]
  have g2 : ∀ s : GameState,
      nameHasMountain s.room.name = true → s.player.hasItem ItemType.KEY = true →
      (handleCommand s "look").output = [Msg.mountainHint] := by
    intro s h1 h2
    rw [handleCommand_look]
    simp [look, h1, h2]
  refine ⟨g1, g2, reachable_name_mountain, ?_, ?_, fun _ => rfl⟩
  · intro s hs h
    apply g1
    rintro ⟨h1, h2⟩
    rcases h with h | h
    · exact h ((reachable_name_mountain s hs).mp h1)
    · rw [h2] at h; cases h
  · intro s hs h1 h2
    exact g2 s ((reachable_name_mountain s hs).mpr h1) h2

/-- C19 in the initial state, at the forest. -/
theorem look_output_witness :
    (handleCommand initialState "look").output =
      Msg.roomLook initialState.room.name initialState.room.detailedDescription ::
        initialState.room.showAvailablePathsAndItems :=
  look_output.2.2.2.1 initialState Reachable.init (Or.inl (by decide))

/-! ## The path to the mountain -/

/-- C20, as stated, fails: the forest has no west exit, so the lines
`w, w, e, s, s, e` leave the player in the cave; a following `take` finds no
sword and a following `e` goes nowhere. -/
theorem west_path_ends_in_cave :
    (run ["w", "w", "e", "s", "s", "e"]).state.player.currentRoom = RoomId.cave ∧
    (run ["w", "w", "e", "s", "s", "e"]).state.player.currentRoom ≠ RoomId.mountain ∧
    (run ["w"]).state.player.currentRoom = RoomId.forest ∧
    (run ["w"]).output.getLast? = some Msg.cannotGo ∧
    (run ["w", "w", "e", "s", "s", "e", "take"]).state.player.hasItem ItemType.SWORD = false ∧
    (run ["w", "w", "e", "s", "s", "e", "take", "e"]).state.player.currentRoom = RoomId.cave := by
  decide

/-- C20 (amended): from the initial state, at the forest, the lines `n, e, e, s`
bring the player to the mountain by way of the village, the valley and the
lake; a following `take` puts the sword in the inventory and a following `e`
puts the player in the hidden room, although `east` is not among the exits
shown. -/
theorem path_to_mountain :
    initialState.player.currentRoom = RoomId.forest ∧
    (run ["n"]).state.player.currentRoom = RoomId.village ∧
    (run ["n", "e"]).state.player.currentRoom = RoomId.valley ∧
    (run ["n", "e", "e"]).state.player.currentRoom = RoomId.lake ∧
    (run ["n", "e", "e", "s"]).state.player.currentRoom = RoomId.mountain ∧
    (run ["n", "e", "e", "s"]).state.player.hasItem ItemType.SWORD = false ∧
    (run ["n", "e", "e", "s", "take"]).state.player.hasItem ItemType.SWORD = true ∧
    (run ["n", "e", "e", "s", "take"]).state.player.currentRoom = RoomId.mountain ∧
    "east" ∉ (run ["n", "e", "e", "s", "take"]).state.room.shownPaths ∧
    (run ["n", "e", "e", "s", "take", "e"]).state.player.currentRoom = RoomId.hiddenRoom ∧
    (run ["n", "e", "e", "s", "take", "e"]).outcome = Outcome.next := by
  decide

/-! ## Invariants of the inventory and of the exit lists -/

/-- C21: in every state reachable from the initial state, and so after every
sequence of input lines, the has-treasure flag is true if and only if the
inventory contains the treasure. -/
theorem hasTreasure_mirrors_inventory :
    (∀ s : GameState, Reachable s →
      (s.player.hasTreasure = true ↔ s.player.hasItem ItemType.TREASURE = true)) ∧
    (∀ lines : List String,
      ((run lines).state.player.hasTreasure = true ↔
        (run lines).state.player.hasItem ItemType.TREASURE = true)) := by
  have main : ∀ s : GameState, Reachable s →
      (s.player.hasTreasure = true ↔ s.player.hasItem ItemType.TREASURE = true) := by
    intro s hs
    rw [reachable_hasTreasure s hs]
  exact ⟨main, fun lines => main _ (reachable_runFrom _ _ _ Reachable.init)⟩

set_option maxRecDepth 4096 in
/-- C21 right after the treasure is taken and right before. -/
theorem hasTreasure_mirrors_inventory_witness :
    (run winningLines).state.player.hasTreasure = true ∧
    (run winningLines).state.player.hasItem ItemType.TREASURE = true ∧
    (run approachLines).state.player.hasTreasure = false ∧
    ¬ (run approachLines).state.player.hasItem ItemType.TREASURE = true :=
  have h1 := hasTreasure_mirrors_inventory.1 (run winningLines).state (reachable_runFrom _ _ _ Reachable.init)
  have h2 := hasTreasure_mirrors_inventory.1 (run approachLines).state (reachable_runFrom _ _ _ Reachable.init)
  have f1 : (run winningLines).state.player.hasTreasure = true := by decide
  have f2 : (run approachLines).state.player.hasTreasure = false := by decide
  ⟨f1, h1.mp f1, f2, fun h => by rw [h2.mpr h] at f2; cases f2⟩

/-- C22: in every reachable state (the state the world builder leaves included),
for each of the eight rooms every name in the list of shown exits is the name
of a direction with a non-null neighbour, no name is listed twice, and the
list has at most four entries; for the mountain the list is exactly `north`
while its neighbours lie north and east, so the list is a strict subset with
east suppressed; and the guard of `addPath` never lets the count pass four. -/
theorem exits_subset_of_adjacency :
    (∀ s : GameState, Reachable s → ∀ r : RoomId,
      (∀ p ∈ (s.rooms r).shownPaths,
        ∃ d, directionToString d = p ∧ (s.rooms r).connections d ≠ none) ∧
      (s.rooms r).shownPaths.Nodup ∧
      (s.rooms r).shownPaths.length ≤ 4 ∧
      (s.rooms r).numPaths ≤ 4) ∧
    (∀ s : GameState, Reachable s →
      (s.rooms RoomId.mountain).shownPaths = [directionToString Direction.NORTH] ∧
      (∀ d, (s.rooms RoomId.mountain).connections d ≠ none ↔
        (d = Direction.NORTH ∨ d = Direction.EAST)) ∧
      directionToString Direction.EAST ∉ (s.rooms RoomId.mountain).shownPaths) ∧
    (∀ (r : Room) (p : String), r.numPaths ≤ 4 → (r.addPath p).numPaths ≤ 4) := by
  refine ⟨?_, ?_, addPath_numPaths_le⟩
  · intro s hs r
    have hl := reachable_layout s hs r
    have hsp : (s.rooms r).shownPaths = (initialState.rooms r).shownPaths := by
      unfold Room.shownPaths; rw [hl.2.1, hl.2.2.1]
    obtain ⟨h1, h2, h3, h4⟩ := initial_exits r
    rw [hsp, hl.1, hl.2.2.1]
    refine ⟨?_, h2, h3, h4⟩
    intro p hp
    rw [List.all_eq_true] at h1
    exact Room.nameConnected_spec _ p (h1 p hp)
  · intro s hs
    have hl := reachable_layout s hs RoomId.mountain
    have hsp : (s.rooms RoomId.mountain).shownPaths =
        (initialState.rooms RoomId.mountain).shownPaths := by
      unfold Room.shownPaths; rw [hl.2.1, hl.2.2.1]
    rw [hsp, hl.1]
    refine ⟨by decide, ?_, by decide⟩
    intro d
    cases d <;> decide

/-- C22 at the valley after two moves. -/
theorem exits_subset_of_adjacency_witness :
    ((run ["n", "e"]).state.rooms RoomId.valley).shownPaths.Nodup ∧
    ((run ["n", "e"]).state.rooms RoomId.valley).shownPaths.length ≤ 4 :=
  have h := exits_subset_of_adjacency.1 (run ["n", "e"]).state
    (reachable_runFrom _ _ _ Reachable.init) RoomId.valley
  ⟨h.2.1, h.2.2.1⟩

/-- C23: acquisitions are permanent: for every game state and every input line,
each inventory flag (sword, key, treasure) that is true before the line is
true afterwards, so is the has-treasure flag, and every occupant that is
defeated before is still there and defeated afterwards. -/
theorem acquisitions_permanent (s : GameState) (line : String) :
    (∀ i, s.player.hasItem i = true → (handleCommand s line).state.player.hasItem i = true) ∧
    (s.player.hasTreasure = true → (handleCommand s line).state.player.hasTreasure = true) ∧
    (∀ r n, (s.rooms r).npc = some n → n.isDefeated = true →
      ∃ n', ((handleCommand s line).state.rooms r).npc = some n' ∧ n'.isDefeated = true ∧
        n'.type = n.type) := by
  rcases handleCommand_state_cases s line with h | ⟨_, h | h | ⟨d, _, h⟩⟩
  · rw [h]
    exact ⟨fun _ h => h, fun h => h, fun r n h1 h2 => ⟨n, h1, h2, rfl⟩⟩
  · rw [h]; exact fight_permanent s
  · rw [h]
    refine ⟨(take_permanent s).1, (take_permanent s).2, ?_⟩
    intro r n h1 h2
    exact ⟨n, by rw [take_npc]; exact h1, h2, rfl⟩
  · rw [h]
    have hm := move_permanent s d
    refine ⟨?_, fun h => by rw [hm.2]; exact h, ?_⟩
    · intro i hi
      cases i <;> simp_all [Player.hasItem]
    · intro r n h1 h2
      exact ⟨n, by rw [move_rooms]; exact h1, h2, rfl⟩

set_option maxRecDepth 4096 in
/-- C23 across the `take` of the treasure: sword and key stay. -/
theorem acquisitions_permanent_witness :
    (handleCommand (run approachLines).state "take").state.player.hasItem ItemType.SWORD = true ∧
    (handleCommand (run approachLines).state "take").state.player.hasItem ItemType.KEY = true :=
  ⟨(acquisitions_permanent (run approachLines).state "take").1 ItemType.SWORD (by decide),
    (acquisitions_permanent (run approachLines).state "take").1 ItemType.KEY (by decide)⟩

/-! ## The render rule -/

/-- C24: the head of a loop pass prints the short description and the
exits/occupant/item summary of the current room, then the prompt, if the
previously read line was not exactly `look`, and only the prompt if it was;
the first pass always prints them; each pass hands the line it read to the
next pass; and after `look` the output of that turn is the look output
followed directly by the next prompt.  The render is spelled out: the entry
line, then the exits line when the room shows at least one exit, then the
villager or monster line when the room has an undefeated occupant of that
kind, then the sword, key or treasure line when the room holds that item; each
of these lines is in the head exactly under that condition; and the heads at
the forest, the village, the cave (monster undefeated, then defeated), the
mountain and the hidden room are evaluated. -/
theorem render_rule :
    (∀ (s : GameState) (c : String), c ≠ "look" → loopHead s c = s.room.describe ++ [Msg.prompt]) ∧
    (∀ s : GameState, loopHead s "look" = [Msg.prompt]) ∧
    (∀ (s : GameState) (c : String), (loopHead s c).any Msg.isRoomEntry = true ↔ c ≠ "look") ∧
    (∀ r : Room, r.describe = Msg.roomEntry r.name r.description :: r.showAvailablePathsAndItems) ∧
    (∀ (line : String) (rest : List String),
      ∃ tail, (run (line :: rest)).output = initialState.room.describe ++ [Msg.prompt] ++ tail) ∧
    (∀ (s : GameState) (c line : String) (rest : List String),
      (handleCommand s line).outcome = Outcome.next →
      (runFrom s c (line :: rest)).output =
        loopHead s c ++ (handleCommand s line).output ++
          (runFrom (handleCommand s line).state line rest).output) ∧
    (∀ (s : GameState) (c next : String) (rest : List String),
      ∃ tail, (runFrom s c ("look" :: next :: rest)).output =
        loopHead s c ++ look s ++ [Msg.prompt] ++ tail) ∧
    (∀ r : Room, r.describe =
      Msg.roomEntry r.name r.description ::
        ((if r.numPaths > 0 then [Msg.paths (r.availablePaths.take r.numPaths)] else []) ++
          (match r.npc with
            | none => []
            | some n =>
              if n.isDefeated then []
              else
                match n.type with
                | NPCType.VILLAGER => [Msg.villagerHere]
                | NPCType.MONSTER => [Msg.monsterHere]
                | NPCType.NO_NPC => []) ++
          (match r.item with
            | ItemType.NONE => []
            | ItemType.SWORD => [Msg.swordHere]
            | ItemType.KEY => [Msg.keyHere]
            | ItemType.TREASURE => [Msg.treasureHere]))) ∧
    (∀ (s : GameState) (c : String), c ≠ "look" →
      (Msg.roomEntry s.room.name s.room.description ∈ loopHead s c) ∧
      (Msg.paths s.room.shownPaths ∈ loopHead s c ↔ s.room.numPaths > 0) ∧
      (Msg.villagerHere ∈ loopHead s c ↔
        ∃ n, s.room.npc = some n ∧ n.isDefeated = false ∧ n.type = NPCType.VILLAGER) ∧
      (Msg.monsterHere ∈ loopHead s c ↔
        ∃ n, s.room.npc = some n ∧ n.isDefeated = false ∧ n.type = NPCType.MONSTER) ∧
      (Msg.swordHere ∈ loopHead s c ↔ s.room.item = ItemType.SWORD) ∧
      (Msg.keyHere ∈ loopHead s c ↔ s.room.item = ItemType.KEY) ∧
      (Msg.treasureHere ∈ loopHead s c ↔ s.room.item = ItemType.TREASURE)) ∧
    (loopHead initialState "" =
        [Msg.roomEntry forestName forestDescription, Msg.paths ["north", "east"], Msg.prompt] ∧
      loopHead (run ["n"]).state "n" =
        [Msg.roomEntry villageName villageDescription, Msg.paths ["east", "south"],
          Msg.villagerHere, Msg.prompt] ∧
      loopHead (run ["e", "s"]).state "s" =
        [Msg.roomEntry caveName caveDescription, Msg.paths ["north"], Msg.monsterHere,
          Msg.prompt] ∧
      loopHead (run (armedCaveLines ++ ["fight"])).state "fight" =
        [Msg.roomEntry caveName caveDescription, Msg.paths ["north"], Msg.prompt] ∧
      loopHead (run ["n", "e", "e", "s"]).state "s" =
        [Msg.roomEntry mountainName mountainDescription, Msg.paths ["north"], Msg.swordHere,
          Msg.prompt] ∧
      loopHead (run ["n", "e", "e", "s", "take"]).state "take" =
        [Msg.roomEntry mountainName mountainDescription, Msg.paths ["north"], Msg.prompt] ∧
      loopHead (run ["n", "e", "e", "s", "e"]).state "e" =
        [Msg.roomEntry hiddenRoomName hiddenRoomDescription, Msg.paths ["west"],
          Msg.treasureHere, Msg.prompt]) := by
  have h1 : ∀ (s : GameState) (c : String), c ≠ "look" →
      loopHead s c = s.room.describe ++ [Msg.prompt] := by
    intro s c h; simp [loopHead, h]
  have h2 : ∀ s : GameState, loopHead s "look" = [Msg.prompt] := by
    intro s; simp [loopHead]
  have hrun : ∀ (s : GameState) (c line : String) (rest : List String),
      ∃ tail, (runFrom s c (line :: rest)).output = loopHead s c ++ tail := by
    intro s c line rest
    cases ho : (handleCommand s line).outcome with
    | next => exact ⟨_, by rw [(runFrom_cons_next s c line rest ho).2.2.1, List.append_assoc]⟩
    | quit => exact ⟨_, (runFrom_cons_break s c line rest (by rw [ho]; decide)).2.2.1⟩
    | victory => exact ⟨_, (runFrom_cons_break s c line rest (by rw [ho]; decide)).2.2.1⟩
  refine ⟨h1, h2, ?_, fun _ => rfl, ?_, ?_, ?_, ?_, ?_,
    ⟨rfl, rfl, rfl, rfl, rfl, rfl, rfl⟩⟩
  · intro s c
    by_cases h : c = "look"
    · subst h
      rw [h2]
      simp [Msg.isRoomEntry]
    · rw [h1 s c h]
      simp [h, describe_has_entry]
  · intro line rest
    obtain ⟨tail, ht⟩ := hrun initialState "" line rest
    exact ⟨tail, by rw [run, ht, h1 initialState "" (by decide)]⟩
  · intro s c line rest ho
    exact (runFrom_cons_next s c line rest ho).2.2.1
  · intro s c next rest
    have e := (runFrom_cons_next s c "look" (next :: rest) (by rw [handleCommand_look])).2.2.1
    rw [handleCommand_look] at e
    obtain ⟨tail, ht⟩ := hrun s "look" next rest
    refine ⟨tail, ?_⟩
    rw [e, ht, h2]
    simp
  · intro r
    obtain ⟨conn, paths, num, name, desc, detailed, item, npc, locked⟩ := r
    cases npc <;> cases item <;> rfl
  · intro s c hc
    rw [h1 s c hc]
    generalize s.room = r
    obtain ⟨conn, paths, num, name, desc, detailed, item, npc, locked⟩ := r
    rcases npc with _ | ⟨ty, defeated, words⟩
    · by_cases hn : num > 0 <;> cases item <;>
        simp [Room.describe, Room.showAvailablePathsAndItems, Room.shownPaths, npcLine,
          itemLine, hn]
    · by_cases hn : num > 0 <;> cases item <;> cases ty <;> cases defeated <;>
        simp [Room.describe, Room.showAvailablePathsAndItems, Room.shownPaths, npcLine,
          itemLine, hn]

/-- C24 on the inputs `look, x` and `x, x` from the initial state, and at the
mountain, where the head shows the sword. -/
theorem render_rule_witness :
    (run ["look", "x"]).output =
      initialState.room.describe ++ [Msg.prompt] ++ initialState.room.describeLook ++
        [Msg.prompt, Msg.unknownCommand] ∧
    (run ["x", "x"]).output =
      initialState.room.describe ++ [Msg.prompt, Msg.unknownCommand] ++
        initialState.room.describe ++ [Msg.prompt, Msg.unknownCommand] ∧
    loopHead initialState "help" = initialState.room.describe ++ [Msg.prompt] ∧
    Msg.swordHere ∈ loopHead (run ["n", "e", "e", "s"]).state "s" ∧
    Msg.monsterHere ∈ loopHead (run ["e", "s"]).state "s" ∧
    Msg.paths ["north", "east"] ∈ loopHead initialState "" :=
  ⟨rfl, rfl, render_rule.1 initialState "help" (by decide),
    ((render_rule.2.2.2.2.2.2.2.2.1 (run ["n", "e", "e", "s"]).state "s" (by decide)).2.2.2.2.1).mpr
      (by decide),
    ((render_rule.2.2.2.2.2.2.2.2.1 (run ["e", "s"]).state "s" (by decide)).2.2.2.1).mpr
      ⟨NPC.new NPCType.MONSTER monsterDialogue, by decide, by decide, by decide⟩,
    ((render_rule.2.2.2.2.2.2.2.2.1 initialState "" (by decide)).2.1).mpr (by decide)⟩

/-! ## End of input -/

/-- C25 evaluated on the code: the loop has no exit at the end of the input.  On
the empty input, and on the input `look` without a final newline, it is still
running after any number of passes; more generally, whenever the lines entered
neither quit nor win, the loop never ends once they are used up.  It does end,
with the outcome of the run, when a line quits or wins. -/
theorem loop_spins_at_end_of_input :
    (∀ n : Nat, (mainLoop n ⟨[], true⟩ "" initialState).outcome = Outcome.next) ∧
    (∀ n : Nat, (mainLoop n ⟨"look".data, true⟩ "" initialState).outcome = Outcome.next) ∧
    (∀ lines : List String, (∀ l ∈ lines, '\n' ∉ l.data) →
      (run lines).outcome = Outcome.next → (run lines).state.player.hasTreasure = false →
      ∀ n : Nat, (mainLoop n ⟨feed lines, true⟩ "" initialState).outcome = Outcome.next) ∧
    (∀ lines : List String, (∀ l ∈ lines, '\n' ∉ l.data) →
      (run lines).outcome ≠ Outcome.next →
      ∀ k : Nat, (mainLoop (lines.length + k) ⟨feed lines, true⟩ "" initialState).outcome =
        (run lines).outcome) := by
  have gen : ∀ lines : List String, (∀ l ∈ lines, '\n' ∉ l.data) →
      (run lines).outcome = Outcome.next → (run lines).state.player.hasTreasure = false →
      ∀ n : Nat, (mainLoop n ⟨feed lines, true⟩ "" initialState).outcome = Outcome.next := by
    intro lines hclean ho hT n
    apply mainLoop_running lines.length n
    rw [Nat.add_comm]
    rw [((mainLoop_feed lines hclean n initialState "").2 ho).1]
    exact (mainLoop_exhausted n _ _ hT).1
  refine ⟨fun n => gen [] (by simp) rfl rfl n, ?_, gen, ?_⟩
  · intro n
    cases n with
    | zero => rfl
    | succ n =>
      have hg : getline ⟨"look".data, true⟩ "" = (⟨[], false⟩, "look") := by rfl
      simp only [mainLoop, hg, handleCommand_look]
      exact mainLoop_spin_look n [] _
  · intro lines hclean ho k
    exact ((mainLoop_feed lines hclean k initialState "").1 ho).1

/-- C25 on two inputs: `quit` ends the loop in one pass; after `look` and an
unknown line the loop is still running after five passes. -/
theorem loop_spins_at_end_of_input_witness :
    (mainLoop 1 ⟨feed ["quit"], true⟩ "" initialState).outcome = Outcome.quit ∧
    (mainLoop 5 ⟨feed ["look", "zzz"], true⟩ "" initialState).outcome = Outcome.next :=
  ⟨loop_spins_at_end_of_input.2.2.2 ["quit"] (by decide) (by decide) 0,
    loop_spins_at_end_of_input.2.2.1 ["look", "zzz"] (by decide) (by decide) (by decide) 5⟩

/-! ## Conservation and the shortest win -/

/-- C26: item conservation in every reachable state: the sword is in exactly one
of the mountain's item slot and the inventory and in no other room; the
treasure is in exactly one of the hidden room's item slot and the inventory
and in no other room; no room holds the key; the inventory contains the key
if and only if the monster of the cave is defeated; and the villager is never
defeated. -/
theorem item_conservation (s : GameState) (hs : Reachable s) :
    (((s.rooms RoomId.mountain).item = ItemType.SWORD ↔
        s.player.hasItem ItemType.SWORD = false) ∧
      (∀ r, r ≠ RoomId.mountain → (s.rooms r).item ≠ ItemType.SWORD)) ∧
    (((s.rooms RoomId.hiddenRoom).item = ItemType.TREASURE ↔
        s.player.hasItem ItemType.TREASURE = false) ∧
      (∀ r, r ≠ RoomId.hiddenRoom → (s.rooms r).item ≠ ItemType.TREASURE)) ∧
    (∀ r, (s.rooms r).item ≠ ItemType.KEY) ∧
    (s.player.hasItem ItemType.KEY = true ↔
      ∃ n, (s.rooms RoomId.cave).npc = some n ∧ n.type = NPCType.MONSTER ∧
        n.isDefeated = true) ∧
    (∃ n, (s.rooms RoomId.village).npc = some n ∧ n.type = NPCType.VILLAGER ∧
      n.isDefeated = false) := by
  have hit := reachable_items s hs
  have hocc := reachable_occupants s hs
  refine ⟨⟨?_, ?_⟩, ⟨?_, ?_⟩, (reachable_inventory_chain s hs).1, ?_, ?_⟩
  · rw [hit]
    cases h : s.player.hasItem ItemType.SWORD <;> simp [itemLeft, h]
  · intro r hr
    rw [hit]
    cases r <;> simp [itemLeft] at hr ⊢
    split_ifs <;> simp
  · rw [hit]
    cases h : s.player.hasItem ItemType.TREASURE <;> simp [itemLeft, h]
  · intro r hr
    rw [hit]
    cases r <;> simp [itemLeft] at hr ⊢
    split_ifs <;> simp
  · rw [hocc.2]
    constructor
    · intro h
      exact ⟨_, rfl, rfl, by simp [caveMonster, h]⟩
    · rintro ⟨n, hn, _, hd⟩
      cases hn
      simpa [caveMonster] using hd
  · refine ⟨NPC.new NPCType.VILLAGER villagerDialogue, ?_, rfl, rfl⟩
    rw [hocc.1 RoomId.village (by decide)]
    rfl

set_option maxRecDepth 4096 in
/-- C26 on arrival in the hidden room with sword and key. -/
theorem item_conservation_witness :
    ((run approachLines).state.rooms RoomId.mountain).item ≠ ItemType.SWORD ∧
    ((run approachLines).state.rooms RoomId.hiddenRoom).item = ItemType.TREASURE ∧
    ((run approachLines).state.rooms RoomId.cave).item ≠ ItemType.KEY :=
  have h := item_conservation (run approachLines).state (reachable_runFrom _ _ _ Reachable.init)
  ⟨fun e => by have := h.1.1.mp e; revert this; decide, h.2.1.1.mpr (by decide),
    h.2.2.1 RoomId.cave⟩

/-- C27, as stated, fails: after pacing between forest and ruins `1073741816`
times and then playing the winning lines, the game ends in victory and the
banner reports the wrapped counter `-2147483647`, which is below 17. -/
theorem banner_below_17_after_wrap :
    (run (pacing 1073741816 ++ (winningLines ++ ["x"]))).outcome = Outcome.victory ∧
    (run (pacing 1073741816 ++ (winningLines ++ ["x"]))).output.getLast? =
      some (Msg.victoryBanner
        (run (pacing 1073741816 ++ (winningLines ++ ["x"]))).state.player.moveCount) ∧
    (run (pacing 1073741816 ++ (winningLines ++ ["x"]))).state.player.moveCount.val =
      -2147483647 := by
  simp only [run]
  have hn : (runFrom initialState "" (pacing 1073741816)).outcome = Outcome.next :=
    (runFrom_pacing 1073741816 initialState "" rfl rfl rfl).1
  obtain ⟨a, b, _⟩ := runFrom_append (pacing 1073741816) (winningLines ++ ["x"]) initialState "" hn
  have hirr := runFrom_command_irrelevant (runFrom initialState "" (pacing 1073741816)).state
    (runFrom initialState "" (pacing 1073741816)).command "" (winningLines ++ ["x"])
  rw [run_pacing_nearMax] at hirr a b
  rw [hirr.1] at a
  rw [hirr.2] at b
  have hv : (runFrom initialState "" (pacing 1073741816 ++ (winningLines ++ ["x"]))).outcome =
      Outcome.victory := by rw [b]; exact nearMax_win.1
  refine ⟨hv, (runFrom_victory _ _ _ hv).2, ?_⟩
  rw [a]
  exact nearMax_win.2

set_option maxRecDepth 8192 in
/-- C27 (amended): every input sequence from the initial state that ends in
victory ends with the banner reporting the final move counter and contains at
least 17 successful moves, so the reported count is at least 17 whenever the
successful moves number at most `2^31 - 1`; and 17 is attained by the winning
lines: 4 moves from the forest to the mountain, 6 from the mountain to the
cave and 7 from the cave to the hidden room. -/
theorem victory_needs_17_moves :
    (∀ lines : List String, (run lines).outcome = Outcome.victory →
      (run lines).output.getLast? =
        some (Msg.victoryBanner (run lines).state.player.moveCount) ∧
      17 ≤ successfulMoves initialState lines ∧
      (successfulMoves initialState lines ≤ 2147483647 →
        17 ≤ (run lines).state.player.moveCount.val)) ∧
    ((run (winningLines ++ ["x"])).outcome = Outcome.victory ∧
      (run (winningLines ++ ["x"])).output.getLast? =
        some (Msg.victoryBanner ⟨17, by decide⟩) ∧
      successfulMoves initialState (winningLines ++ ["x"]) = 17) ∧
    ((run ["n", "e", "e", "s"]).state.player.currentRoom = RoomId.mountain ∧
      (run ["n", "e", "e", "s"]).state.player.moveCount.val = 4 ∧
      (run armedCaveLines).state.player.currentRoom = RoomId.cave ∧
      (run armedCaveLines).state.player.moveCount.val = 4 + 6 ∧
      (run approachLines).state.player.currentRoom = RoomId.hiddenRoom ∧
      (run approachLines).state.player.moveCount.val = 4 + 6 + 7) := by
  refine ⟨?_, by decide, by decide⟩
  intro lines hv
  obtain ⟨hT, hb⟩ := runFrom_victory lines initialState "" hv
  have hreach : Reachable (run lines).state := reachable_runFrom _ _ _ Reachable.init
  have ht : (run lines).state.player.hasItem ItemType.TREASURE = true := by
    rw [← reachable_hasTreasure _ hreach]; exact hT
  have hgo := movesToGo_run lines initialState "" Reachable.init
  have h0 : movesToGo (runFrom initialState "" lines).state = 0 := by
    unfold run at ht
    simp [movesToGo, ht]
  have h17 : movesToGo initialState = 17 := by decide
  rw [h0, h17] at hgo
  refine ⟨hb, by omega, ?_⟩
  intro hle
  have hm := runFrom_moveCount lines initialState "" (by
    have : initialState.player.moveCount.val = 0 := by decide
    rw [this]; omega)
  have hz : initialState.player.moveCount.val = 0 := by decide
  rw [hz] at hm
  unfold run
  rw [hm]
  omega

/-- C27 on the winning lines themselves. -/
theorem victory_needs_17_moves_witness :
    17 ≤ successfulMoves initialState (winningLines ++ ["x"]) :=
  (victory_needs_17_moves.1 (winningLines ++ ["x"]) victory_needs_17_moves.2.1.1).2.1

end AdventureGame
